import Mathlib

/-!
Shallow embedding of the weather-backend core (CRUD chain, weather
normalizer, multi-format exporter) together with proofs about the
behaviour its specification describes.

Conventions of the embedding:
* Python dicts that are used in insertion order are modelled as ordered
  association lists (`List (String × Json)` or `List (String × Nat)`).
* Python `float` values that only flow through serialization are modelled
  by their decimal literal (mantissa and number of decimal places), which
  is exactly the information `repr`/`json` round-trips for the coordinate
  magnitudes of this domain.
* Calendar dates are modelled as integer day numbers; `datetime.now()` /
  `datetime.utcnow()` become explicit parameters.
* Outbound HTTP and the database session are oracles passed in as
  arguments; a transactional session publishes staged changes only on a
  successful commit (the storage boundary of the spec, §5).
-/

set_option maxRecDepth 4096

namespace Weather

/-- Left brace character, kept out of string literals. -/
def lbrace : Char := Char.ofNat 123

/-- Right brace character, kept out of string literals. -/
def rbrace : Char := Char.ofNat 125

/-- Model of Python `str.lower` for the ASCII strings this service handles. -/
def pyLower (s : String) : String := s.map Char.toLower

/-- Helper for `pyTitle`: the Bool records whether the previous character was
alphabetic (Python `str.title` upper-cases a letter exactly when the previous
character is not cased). -/
def titleAux : Bool → List Char → List Char
  | _, [] => []
  | prevAlpha, c :: cs =>
    if c.isAlpha then
      (if prevAlpha then c.toLower else c.toUpper) :: titleAux true cs
    else
      c :: titleAux false cs

/-- Model of Python `str.title` (ASCII). -/
def pyTitle (s : String) : String := String.mk (titleAux false s.data)

/-- Model of Python's substring containment test `needle in hay`. -/
def pyIn (needle hay : String) : Bool :=
  hay.data.tails.any (fun t => needle.data.isPrefixOf t)

/-- Two-digit zero padding, as in `strftime` fields. -/
def pad2 (n : Nat) : String := if n < 10 then "0" ++ toString n else toString n

/-- Model of a Python `datetime` value (microseconds are not used by any of
the formatting the service performs, so they are omitted). -/
structure PyDateTime where
  year : Nat
  month : Nat
  day : Nat
  hour : Nat
  minute : Nat
  second : Nat
deriving DecidableEq, Repr

/-- `strftime " percent Y- percent m- percent d"`. -/
def fmtYmd (d : PyDateTime) : String :=
  toString d.year ++ "-" ++ pad2 d.month ++ "-" ++ pad2 d.day

/-- `strftime` with date, hours and minutes. -/
def fmtYmdHm (d : PyDateTime) : String :=
  fmtYmd d ++ " " ++ pad2 d.hour ++ ":" ++ pad2 d.minute

/-- `strftime` with date, hours, minutes and seconds. -/
def fmtYmdHms (d : PyDateTime) : String :=
  fmtYmdHm d ++ ":" ++ pad2 d.second

/-- Model of `datetime.isoformat()`. -/
def pyIsoformat (d : PyDateTime) : String :=
  fmtYmd d ++ "T" ++ pad2 d.hour ++ ":" ++ pad2 d.minute ++ ":" ++ pad2 d.second

/-- Decimal-literal model of a Python float: the value is
`man / 10 ^ exp`, and `exp` is the number of digits printed after the
decimal point by `repr`. Two floats are equal iff their shortest repr
literals are, so this carries exactly the round-trip content. -/
structure Dec where
  man : Int
  exp : Nat
deriving DecidableEq, Repr

/-- Decimal digit character. -/
def digitChar (n : Nat) : Char := Char.ofNat (48 + n)

/-- Base-10 digit expansion with explicit fuel (structural, so it computes
definitionally; any fuel above the value suffices). -/
def natDigitsF : Nat → Nat → List Char
  | 0, _ => []
  | f + 1, n => if n < 10 then [digitChar n] else natDigitsF f (n / 10) ++ [digitChar (n % 10)]

/-- Base-10 digits of a natural number, most significant first. -/
def natDigits (n : Nat) : List Char := natDigitsF (n + 1) n

/-- Digits of `n` left-padded with zeros to width `w`. -/
def padDigits (w : Nat) (n : Nat) : List Char :=
  List.replicate (w - (natDigits n).length) '0' ++ natDigits n

/-- Digits of the unsigned decimal literal with `e` digits after the point. -/
def numCore (n : Nat) (e : Nat) : List Char :=
  if e = 0 then natDigits n
  else natDigits (n / 10 ^ e) ++ '.' :: padDigits e (n % 10 ^ e)

/-- Characters of the decimal literal for mantissa `m` with `e` digits after
the point (`e = 0` prints an integer literal, as `json.dumps` does for
Python ints). -/
def numChars (m : Int) (e : Nat) : List Char :=
  if m < 0 then '-' :: numCore m.natAbs e else numCore m.natAbs e

/-- `str()` / `repr` of the modelled float. -/
def decRepr (d : Dec) : String := String.mk (numChars d.man d.exp)

/-- JSON values, as produced and consumed by the service: numbers are kept
as their decimal literal (mantissa, digits after the point). -/
inductive Json where
  | null : Json
  | bool : Bool → Json
  | num : Int → Nat → Json
  | str : String → Json
  | arr : List Json → Json
  | obj : List (String × Json) → Json

/-- JSON escaping of one character (the service's payloads need only the
quote and backslash escapes; other characters pass through verbatim). -/
def escapeChar (c : Char) : List Char :=
  if c = '"' ∨ c = '\\' then ['\\', c] else [c]

/-- JSON escaping of a character list. -/
def escapeL : List Char → List Char
  | [] => []
  | c :: cs => escapeChar c ++ escapeL cs

/-- Characters of a JSON string literal. -/
def strChars (s : String) : List Char := '"' :: (escapeL s.data ++ ['"'])

/-- Newline followed by the 2-space-per-level indentation of
`json.dumps(indent=2)`. -/
def nlIndent (l : Nat) : List Char := '\n' :: List.replicate (2 * l) ' '

mutual

/-- Pretty renderer for `Json`, modelling `json.dumps(..., indent=2)`;
`l` is the current nesting level. -/
def renderJ : Nat → Json → List Char
  | _, .null => 'n' :: 'u' :: 'l' :: 'l' :: []
  | _, .bool true => 't' :: 'r' :: 'u' :: 'e' :: []
  | _, .bool false => 'f' :: 'a' :: 'l' :: 's' :: 'e' :: []
  | _, .num m e => numChars m e
  | _, .str s => strChars s
  | _, .arr [] => '[' :: ']' :: []
  | l, .arr (x :: xs) =>
      '[' :: (nlIndent (l + 1) ++ (renderJ (l + 1) x ++
        (renderItems (l + 1) xs ++ (nlIndent l ++ [']']))))
  | _, .obj [] => lbrace :: rbrace :: []
  | l, .obj (kv :: kvs) =>
      lbrace :: (nlIndent (l + 1) ++ (renderKV (l + 1) kv ++
        (renderKVs (l + 1) kvs ++ (nlIndent l ++ [rbrace]))))

/-- Remaining array items, each preceded by a comma and fresh-line indent. -/
def renderItems : Nat → List Json → List Char
  | _, [] => []
  | l, x :: xs => ',' :: (nlIndent l ++ (renderJ l x ++ renderItems l xs))

/-- One `"key": value` pair. -/
def renderKV : Nat → String × Json → List Char
  | l, (k, v) => strChars k ++ (':' :: ' ' :: renderJ l v)

/-- Remaining object members, each preceded by a comma and fresh-line indent. -/
def renderKVs : Nat → List (String × Json) → List Char
  | _, [] => []
  | l, kv :: kvs => ',' :: (nlIndent l ++ (renderKV l kv ++ renderKVs l kvs))

end

/-- String form of the pretty-printed JSON document. -/
def renderJson (j : Json) : String := String.mk (renderJ 0 j)

/-- JSON whitespace. -/
def isWsChar (c : Char) : Bool := c = ' ' || c = '\n' || c = '\t' || c = '\r'

/-- Skip leading JSON whitespace. -/
def skipWs : List Char → List Char
  | [] => []
  | c :: cs => if isWsChar c then skipWs cs else c :: cs

/-- Parse the body of a string literal (opening quote already consumed). -/
def parseStrRest : List Char → Option (String × List Char)
  | [] => none
  | c :: rest =>
    if c = '"' then some ("", rest)
    else if c = '\\' then
      match rest with
      | [] => none
      | d :: rest2 =>
        if d = '"' ∨ d = '\\' then
          match parseStrRest rest2 with
          | some (s, r) => some (String.mk (d :: s.data), r)
          | none => none
        else none
    else
      match parseStrRest rest with
      | some (s, r) => some (String.mk (c :: s.data), r)
      | none => none

/-- Decimal digit test. -/
def isDigitChar (c : Char) : Bool := '0' ≤ c && c ≤ '9'

/-- Longest digit prefix and the remainder. -/
def takeDigits : List Char → List Char × List Char
  | [] => ([], [])
  | c :: cs =>
    if isDigitChar c then
      match takeDigits cs with
      | (ds, r) => (c :: ds, r)
    else ([], c :: cs)

/-- Numeric value of a digit character. -/
def digitVal (c : Char) : Nat := c.toNat - 48

/-- Fold digits into a natural number, with an accumulator. -/
def natOfDigitsAux : Nat → List Char → Nat
  | acc, [] => acc
  | acc, c :: cs => natOfDigitsAux (acc * 10 + digitVal c) cs

/-- Numeric value of a digit string. -/
def natOfDigits (ds : List Char) : Nat := natOfDigitsAux 0 ds

/-- Attach a sign read from a leading minus. -/
def applySign (neg : Bool) (n : Nat) : Int :=
  if neg then -(n : Int) else (n : Int)

/-- Parse the digits of a number literal, the sign already consumed. -/
def parseNumCore (neg : Bool) (cs : List Char) : Option (Json × List Char) :=
  match takeDigits cs with
  | ([], _) => none
  | (d :: ds, r1) =>
    match r1 with
    | [] => some (.num (applySign neg (natOfDigits (d :: ds))) 0, [])
    | c :: r2 =>
      if c = '.' then
        match takeDigits r2 with
        | ([], _) => none
        | (e2 :: es, r3) =>
            some (.num (applySign neg (natOfDigits ((d :: ds) ++ (e2 :: es)))) (e2 :: es).length, r3)
      else some (.num (applySign neg (natOfDigits (d :: ds))) 0, c :: r2)

/-- Parse a number literal (integer, or with a fractional part). -/
def parseNum : List Char → Option (Json × List Char)
  | [] => none
  | c :: rest => if c = '-' then parseNumCore true rest else parseNumCore false (c :: rest)

/-- Recognize the tail of the `null` literal. -/
def expectNull : List Char → Option (Json × List Char)
  | 'u' :: 'l' :: 'l' :: r => some (Json.null, r)
  | _ => none

/-- Recognize the tail of the `true` literal. -/
def expectTrue : List Char → Option (Json × List Char)
  | 'r' :: 'u' :: 'e' :: r => some (Json.bool true, r)
  | _ => none

/-- Recognize the tail of the `false` literal. -/
def expectFalse : List Char → Option (Json × List Char)
  | 'a' :: 'l' :: 's' :: 'e' :: r => some (Json.bool false, r)
  | _ => none

/-- Lift a parsed string literal to a JSON value. -/
def strResult : Option (String × List Char) → Option (Json × List Char)
  | some (s, r) => some (Json.str s, r)
  | none => none

/-- Combine the first array element with the parsed remaining elements. -/
def arrStep2 : Json → Option (List Json × List Char) → Option (Json × List Char)
  | _, none => none
  | j, some (js, r) => some (Json.arr (j :: js), r)

/-- Prepend a later array element to the parsed remaining elements. -/
def arrTailStep2 : Json → Option (List Json × List Char) → Option (List Json × List Char)
  | _, none => none
  | j, some (js, r) => some (j :: js, r)

/-- Combine the first object member with the parsed remaining members. -/
def objTailResult :
    String → Json → Option (List (String × Json) × List Char) → Option (Json × List Char)
  | _, _, none => none
  | k, v, some (kvs, r) => some (Json.obj ((k, v) :: kvs), r)

/-- Prepend a later object member to the parsed remaining members. -/
def objTailStep : String → Json → Option (List (String × Json) × List Char)
    → Option (List (String × Json) × List Char)
  | _, _, none => none
  | k, v, some (kvs, r) => some ((k, v) :: kvs, r)

mutual

/-- Recursive-descent JSON value parser with fuel; models `json.loads` on
the documents this service emits. -/
def parseVal : Nat → List Char → Option (Json × List Char)
  | 0, _ => none
  | f + 1, cs => parseValCore f (skipWs cs)
termination_by fuel _cs => 12 * fuel
decreasing_by all_goals omega

/-- Dispatch on the first non-whitespace character of a value. -/
def parseValCore : Nat → List Char → Option (Json × List Char)
  | _, [] => none
  | f, c :: rest =>
    if c = 'n' then expectNull rest
    else if c = 't' then expectTrue rest
    else if c = 'f' then expectFalse rest
    else if c = '"' then strResult (parseStrRest rest)
    else if c = '[' then parseArrDispatch f rest (skipWs rest)
    else if c = lbrace then parseObjDispatch f (skipWs rest)
    else parseNum (c :: rest)
termination_by f _cs => 12 * f + 11
decreasing_by all_goals omega

/-- After `[`: empty array on an immediate `]`, otherwise first element then
the remaining elements. -/
def parseArrDispatch : Nat → List Char → List Char → Option (Json × List Char)
  | _, _, [] => none
  | f, cs, d :: r2 =>
    if d = ']' then some (Json.arr [], r2)
    else arrStep1 (parseVal f cs) f
termination_by f _cs _skipped => 12 * f + 10
decreasing_by all_goals omega

/-- Continue an array after its first element parsed. -/
def arrStep1 : Option (Json × List Char) → Nat → Option (Json × List Char)
  | none, _ => none
  | some (j, r), f => arrStep2 j (parseArrTail f r)
termination_by _r f => 12 * f + 9
decreasing_by all_goals omega

/-- After the opening brace: empty object on an immediate closing brace,
otherwise the first `"key": value` member then the remaining members. -/
def parseObjDispatch : Nat → List Char → Option (Json × List Char)
  | _, [] => none
  | f, d :: r2 =>
    if d = rbrace then some (Json.obj [], r2)
    else if d = '"' then objKey f (parseStrRest r2)
    else none
termination_by f _cs => 12 * f + 10
decreasing_by all_goals omega

/-- Continue an object member after its key parsed. -/
def objKey : Nat → Option (String × List Char) → Option (Json × List Char)
  | _, none => none
  | f, some (k, r) => objColon f k (skipWs r)
termination_by f _r => 12 * f + 9
decreasing_by all_goals omega

/-- Expect the `:` separating key and value. -/
def objColon : Nat → String → List Char → Option (Json × List Char)
  | _, _, [] => none
  | f, k, e :: r4 => if e = ':' then objValue k (parseVal f r4) f else none
termination_by f _k _cs => 12 * f + 8
decreasing_by all_goals omega

/-- Continue an object after its first member's value parsed. -/
def objValue : String → Option (Json × List Char) → Nat → Option (Json × List Char)
  | _, none, _ => none
  | k, some (v, r), f => objTailResult k v (parseObjTail f r)
termination_by _k _r f => 12 * f + 7
decreasing_by all_goals omega

/-- Array items after the first: a comma then a value, until `]`. -/
def parseArrTail : Nat → List Char → Option (List Json × List Char)
  | fuel, cs => parseArrTailCore fuel (skipWs cs)
termination_by fuel _cs => 12 * fuel + 6
decreasing_by all_goals omega

/-- Dispatch for the continuation of an array. -/
def parseArrTailCore : Nat → List Char → Option (List Json × List Char)
  | _, [] => none
  | 0, c :: rest => if c = ']' then some ([], rest) else none
  | f + 1, c :: rest =>
    if c = ']' then some ([], rest)
    else if c = ',' then arrTailStep (parseVal f rest) f
    else none
termination_by f _cs => 12 * f + 5
decreasing_by all_goals omega

/-- Continue an array after a later element parsed. -/
def arrTailStep : Option (Json × List Char) → Nat → Option (List Json × List Char)
  | none, _ => none
  | some (j, r), f => arrTailStep2 j (parseArrTail f r)
termination_by _r f => 12 * f + 7
decreasing_by all_goals omega

/-- Object members after the first: a comma then a `"key": value`, until
the closing brace. -/
def parseObjTail : Nat → List Char → Option (List (String × Json) × List Char)
  | fuel, cs => parseObjTailCore fuel (skipWs cs)
termination_by fuel _cs => 12 * fuel + 6
decreasing_by all_goals omega

/-- Dispatch for the continuation of an object. -/
def parseObjTailCore : Nat → List Char → Option (List (String × Json) × List Char)
  | _, [] => none
  | 0, c :: rest => if c = rbrace then some ([], rest) else none
  | f + 1, c :: rest =>
    if c = rbrace then some ([], rest)
    else if c = ',' then objTailKeyStart f (skipWs rest)
    else none
termination_by f _cs => 12 * f + 5
decreasing_by all_goals omega

/-- Expect the opening quote of a later member's key. -/
def objTailKeyStart : Nat → List Char → Option (List (String × Json) × List Char)
  | _, [] => none
  | f, d :: r2 => if d = '"' then objTailKey f (parseStrRest r2) else none
termination_by f _cs => 12 * f + 10
decreasing_by all_goals omega

/-- Continue a later object member after its key parsed. -/
def objTailKey : Nat → Option (String × List Char)
    → Option (List (String × Json) × List Char)
  | _, none => none
  | f, some (k, r) => objTailColon f k (skipWs r)
termination_by f _r => 12 * f + 9
decreasing_by all_goals omega

/-- Expect the `:` of a later member. -/
def objTailColon : Nat → String → List Char → Option (List (String × Json) × List Char)
  | _, _, [] => none
  | f, k, e :: r4 => if e = ':' then objTailValue k (parseVal f r4) f else none
termination_by f _k _cs => 12 * f + 8
decreasing_by all_goals omega

/-- Continue the object after a later member's value parsed. -/
def objTailValue : String → Option (Json × List Char) → Nat
    → Option (List (String × Json) × List Char)
  | _, none, _ => none
  | k, some (v, r), f => objTailStep k v (parseObjTail f r)
termination_by _k _r f => 12 * f + 7
decreasing_by all_goals omega

end

/-- Model of `json.loads` on a whole document: parse one value and require
only whitespace after it. -/
def parseJson (s : String) : Option Json :=
  match parseVal (s.data.length + 1) s.data with
  | some (j, rest) => if skipWs rest = [] then some j else none
  | none => none

/-- The continuation does not start with a digit. -/
def headNotDigit : List Char → Prop
  | [] => True
  | c :: _ => isDigitChar c = false

/-- The continuation cannot extend a number literal. -/
def numSafe : List Char → Prop
  | [] => True
  | c :: _ => isDigitChar c = false ∧ c ≠ '.'

/-- Decimal string of a natural number. -/
def natStr (n : Nat) : String := String.mk (natDigits n)

/-- Python `str()` of an int. -/
def pyIntStr (i : Int) : String := String.mk (numChars i 0)

/-- Nearest integer to `num / den` (for `den > 0`), ties to even — the
rounding used when formatting with a fixed number of decimals. -/
def roundHalfEvenDiv (num den : Int) : Int :=
  let q := Int.fdiv num den
  let r := num - q * den
  if 2 * r < den then q
  else if 2 * r > den then q + 1
  else if q % 2 = 0 then q else q + 1

/-- Model of the f-string format `:.4f` on the decimal-literal float. -/
def fmt4 (d : Dec) : String :=
  String.mk (numChars (roundHalfEvenDiv (d.man * 10 ^ 4) (10 ^ d.exp)) 4)

/-- Field lookup on a JSON object (`'k' in d` / `d['k']`); the stored
payloads are always objects or null, so non-object carriers have no keys. -/
def jsonGet (j : Json) (k : String) : Option Json :=
  match j with
  | .obj kvs => (kvs.find? (fun kv => kv.1 == k)).map (fun kv => kv.2)
  | _ => none

/-- Python truthiness of a JSON value. -/
def pyTruthyJson : Json → Bool
  | .null => false
  | .bool b => b
  | .num m _ => decide (m ≠ 0)
  | .str s => decide (s ≠ "")
  | .arr xs => !xs.isEmpty
  | .obj kvs => !kvs.isEmpty

/-- Model of `d.get(k, default)`. -/
def dictGetD (j : Json) (k : String) (dflt : Json) : Json := (jsonGet j k).getD dflt

/-- Python `str()` of a JSON value (containers go through the JSON printer;
the service only ever formats scalars this way). -/
def pyStrJson : Json → String
  | .null => "None"
  | .bool true => "True"
  | .bool false => "False"
  | .num m e => String.mk (numChars m e)
  | .str s => s
  | .arr xs => renderJson (Json.arr xs)
  | .obj kvs => renderJson (Json.obj kvs)

/-- Persisted weather record as the export service reads it: dates are the
strings `str(date)` produces, floats are their decimal literals, the JSON
column is a `Json` value (`Json.null` models SQL NULL). -/
structure WeatherRecord where
  id : Int
  location : String
  startDate : String
  endDate : String
  latitude : Dec
  longitude : Dec
  createdAt : Option PyDateTime
  updatedAt : Option PyDateTime
  temperatureData : Json

-- ------------------------- ExportService.export_to_json -------------------------

/-- The per-record dict built in `export_to_json`'s loop (field order as in
the source). -/
def recordJson (r : WeatherRecord) : Json :=
  Json.obj [
    ("id", Json.num r.id 0),
    ("location", Json.str r.location),
    ("start_date", Json.str r.startDate),
    ("end_date", Json.str r.endDate),
    ("latitude", Json.num r.latitude.man r.latitude.exp),
    ("longitude", Json.num r.longitude.man r.longitude.exp),
    ("created_at", match r.createdAt with
      | some d => Json.str (pyIsoformat d)
      | none => Json.null),
    ("updated_at", match r.updatedAt with
      | some d => Json.str (pyIsoformat d)
      | none => Json.null),
    ("temperature_data", r.temperatureData)]

/-- The `data` list accumulated by `export_to_json`'s `for` loop. -/
def export_to_json_data (records : List WeatherRecord) : List Json :=
  records.foldl (fun acc r => acc ++ [recordJson r]) []

/-- `ExportService.export_to_json`: the list of per-record dicts, dumped with
2-space indentation. -/
def export_to_json (records : List WeatherRecord) : String :=
  renderJson (Json.arr (export_to_json_data records))

-- ------------------------- ExportService.export_to_csv -------------------------

/-- The CSV header row written first. -/
def csvHeader : List String :=
  ["ID", "Location", "Start Date", "End Date", "Latitude", "Longitude",
   "Created At", "Updated At", "Current Temp", "Current Humidity", "Forecast Count"]

/-- One CSV data row (cells as the `csv` writer stringifies them). -/
def csvRow (r : WeatherRecord) : List String :=
  let currentTemp :=
    if pyTruthyJson r.temperatureData then
      match jsonGet r.temperatureData "current" with
      | some cur =>
        match jsonGet cur "main" with
        | some mainObj => pyStrJson (dictGetD mainObj "temp" (Json.str "N/A")) ++ "°C"
        | none => "N/A"
      | none => "N/A"
    else "N/A"
  let currentHumidity :=
    if pyTruthyJson r.temperatureData then
      match jsonGet r.temperatureData "current" with
      | some cur =>
        match jsonGet cur "main" with
        | some mainObj => pyStrJson (dictGetD mainObj "humidity" (Json.str "N/A")) ++ "%"
        | none => "N/A"
      | none => "N/A"
    else "N/A"
  let forecastCount :=
    if pyTruthyJson r.temperatureData then
      match jsonGet r.temperatureData "forecast" with
      | some fc =>
        match jsonGet fc "list" with
        | some (Json.arr items) => natStr items.length
        | some _ => "N/A"
        | none => "N/A"
      | none => "N/A"
    else "N/A"
  [pyIntStr r.id, r.location, r.startDate, r.endDate,
   decRepr r.latitude, decRepr r.longitude,
   (match r.createdAt with | some d => pyIsoformat d | none => "N/A"),
   (match r.updatedAt with | some d => pyIsoformat d | none => "N/A"),
   currentTemp, currentHumidity, forecastCount]

/-- `ExportService.export_to_csv` at the row level: header first, then one
row per record in order. -/
def export_to_csv_rows (records : List WeatherRecord) : List (List String) :=
  records.foldl (fun acc r => acc ++ [csvRow r]) [csvHeader]

-- ------------------------- ExportService.export_to_xml -------------------------

/-- An XML element: tag, attributes, optional text, children. -/
inductive Xml where
  | node (tag : String) (attrs : List (String × String)) (text : Option String)
      (children : List Xml)

/-- The `record` element built per record by `export_to_xml`. -/
def xmlRecordElem (r : WeatherRecord) : Xml :=
  .node "record" [] none ([
    .node "id" [] (some (pyIntStr r.id)) [],
    .node "location" [] (some r.location) [],
    .node "start_date" [] (some r.startDate) [],
    .node "end_date" [] (some r.endDate) [],
    .node "latitude" [] (some (decRepr r.latitude)) [],
    .node "longitude" [] (some (decRepr r.longitude)) [],
    .node "created_at" [] (r.createdAt.map pyIsoformat) [],
    .node "updated_at" [] (r.updatedAt.map pyIsoformat) []]
    ++ (if pyTruthyJson r.temperatureData then
          [.node "weather_summary" [] none (
            (match jsonGet r.temperatureData "current" with
             | some cur =>
               match jsonGet cur "main" with
               | some mainObj => [.node "current_weather" [] none [
                   .node "temperature" []
                     (some (pyStrJson (dictGetD mainObj "temp" (Json.str "N/A")))) [],
                   .node "humidity" []
                     (some (pyStrJson (dictGetD mainObj "humidity" (Json.str "N/A")))) []]]
               | none => []
             | none => [])
            ++ (match jsonGet r.temperatureData "forecast" with
                | some fc =>
                  match jsonGet fc "list" with
                  | some (Json.arr items) => [.node "forecast" [] none
                      [.node "total_periods" [] (some (natStr items.length)) []]]
                  | some _ => []
                  | none => []
                | none => []))]
        else []))

/-- `ExportService.export_to_xml` at the element level: the root carries the
export date and total count, with one `record` child per record in order. -/
def export_to_xml_tree (now : PyDateTime) (records : List WeatherRecord) : Xml :=
  .node "weather_records"
    [("export_date", pyIsoformat now), ("total_records", natStr records.length)] none
    (records.foldl (fun acc r => acc ++ [xmlRecordElem r]) [])

-- ------------------------- ExportService.export_to_pdf -------------------------

/-- A flowable of the PDF document model. -/
inductive PdfElem where
  | paragraph (text : String) (style : String)
  | spacer (w h : Nat)
  | table (rows : List (List String))

/-- A summary-table row of the PDF report. -/
def pdfSummaryRow (r : WeatherRecord) : List String :=
  [pyIntStr r.id, r.location, r.startDate ++ " to " ++ r.endDate,
   fmt4 r.latitude ++ ", " ++ fmt4 r.longitude,
   match r.createdAt with | some d => fmtYmd d | none => "N/A"]

/-- Sample-forecast lines (first records of the slice list, 1-indexed). -/
def pdfSampleLines : List Json → Nat → String
  | [], _ => ""
  | item :: t, j =>
    "  " ++ natStr j ++ ". " ++ pyStrJson (dictGetD item "dt_txt" (Json.str "N/A")) ++ ": "
      ++ pyStrJson (dictGetD (dictGetD item "main" (Json.obj [])) "temp" (Json.str "N/A"))
      ++ "°C, "
      ++ (match dictGetD item "weather" (Json.arr [Json.obj []]) with
          | Json.arr (w :: _) => pyStrJson (dictGetD w "description" (Json.str "N/A"))
          | _ => "N/A")
      ++ "<br/>" ++ pdfSampleLines t (j + 1)

/-- The weather-details paragraph text of one PDF record block. -/
def pdfWeatherInfo (r : WeatherRecord) : String :=
  "🌤️ Weather Data:<br/>"
  ++ (match jsonGet r.temperatureData "current" with
      | some cur =>
        (match jsonGet cur "main" with
         | some m =>
           "🌡️ Current Temperature: " ++ pyStrJson (dictGetD m "temp" (Json.str "N/A"))
             ++ "°C<br/>"
             ++ "💧 Humidity: " ++ pyStrJson (dictGetD m "humidity" (Json.str "N/A"))
             ++ "%<br/>"
             ++ "🌪️ Pressure: " ++ pyStrJson (dictGetD m "pressure" (Json.str "N/A"))
             ++ " hPa<br/>"
             ++ "🌡️ Feels Like: " ++ pyStrJson (dictGetD m "feels_like" (Json.str "N/A"))
             ++ "°C<br/>"
         | none => "")
        ++ (match jsonGet cur "weather" with
            | some (Json.arr (w0 :: _)) =>
              "☁️ Weather: " ++ pyStrJson (dictGetD w0 "description" (Json.str "N/A"))
                ++ "<br/>"
            | some _ => ""
            | none => "")
        ++ (match jsonGet cur "wind" with
            | some w =>
              "💨 Wind Speed: " ++ pyStrJson (dictGetD w "speed" (Json.str "N/A"))
                ++ " m/s<br/>"
                ++ "🧭 Wind Direction: " ++ pyStrJson (dictGetD w "deg" (Json.str "N/A"))
                ++ "°<br/>"
            | none => "")
      | none => "")
  ++ (match jsonGet r.temperatureData "forecast" with
      | some fc =>
        match jsonGet fc "list" with
        | some (Json.arr items) =>
          "📈 Forecast Periods: " ++ natStr items.length ++ "<br/>"
            ++ (if items.isEmpty then ""
                else "<br/>📅 Sample Forecast Data:<br/>" ++ pdfSampleLines (items.take 5) 1)
        | some _ => ""
        | none => ""
      | none => "")

/-- The per-record detail block of the PDF report (`i` is the 1-based index). -/
def pdfDetailBlock (i : Nat) (r : WeatherRecord) : List PdfElem :=
  [.paragraph ("📋 Record " ++ natStr i ++ ": " ++ r.location) "Heading2",
   .spacer 1 10,
   .paragraph ("📍 Location: " ++ r.location ++ "<br/>"
     ++ "📅 Date Range: " ++ r.startDate ++ " to " ++ r.endDate ++ "<br/>"
     ++ "🌍 Coordinates: " ++ fmt4 r.latitude ++ ", " ++ fmt4 r.longitude ++ "<br/>"
     ++ "📊 Created: "
     ++ (match r.createdAt with | some d => fmtYmdHm d | none => "N/A")) "Normal",
   .spacer 1 15]
  ++ (if pyTruthyJson r.temperatureData then [.paragraph (pdfWeatherInfo r) "Normal"]
      else [.paragraph "❌ No weather data available" "Normal"])
  ++ [.spacer 1 20]

/-- The detail loop of `export_to_pdf`. At the end of every non-final
iteration the source evaluates `PageBreak()`, but `PageBreak` is not among
the names imported from `reportlab.platypus` in `export_service.py`, so that
call raises `NameError`, which the enclosing handler re-raises as the
exporter's error. -/
def pdfDetailLoop : List WeatherRecord → Nat → Except String (List PdfElem)
  | [], _ => .ok []
  | r :: rest, i =>
    let block := pdfDetailBlock i r
    match rest with
    | [] => .ok block
    | _ :: _ => .error "PDF export error: name 'PageBreak' is not defined"

/-- `ExportService.export_to_pdf` at the flowable level. -/
def export_to_pdf (now : PyDateTime) (records : List WeatherRecord) :
    Except String (List PdfElem) :=
  let header : List PdfElem :=
    [.paragraph "🌤️ Weather Records Report" "CustomTitle",
     .paragraph ("📅 Generated on: " ++ fmtYmdHms now ++ "<br/>"
       ++ "📊 Total Records: " ++ natStr records.length ++ "<br/>"
       ++ "🌍 Weather data from OpenWeather API") "Summary",
     .spacer 1 30,
     .table ([["ID", "Location", "Date Range", "Coordinates", "Created"]]
       ++ records.foldl (fun acc r => acc ++ [pdfSummaryRow r]) []),
     .spacer 1 30]
  match pdfDetailLoop records 1 with
  | .ok detail => .ok (header ++ detail ++ [.spacer 1 20,
      .paragraph "Generated by Weather App - Powered by OpenWeather API" "Footer"])
  | .error e => .error e

-- ------------------------- ExportService.export_to_markdown -------------------------

/-- A summary-table row of the Markdown report. -/
def mdSummaryRow (r : WeatherRecord) : String :=
  "| " ++ pyIntStr r.id ++ " | " ++ r.location ++ " | "
    ++ r.startDate ++ " to " ++ r.endDate ++ " | "
    ++ fmt4 r.latitude ++ ", " ++ fmt4 r.longitude ++ " | "
    ++ (match r.createdAt with | some d => fmtYmd d | none => "N/A") ++ " |"

/-- The per-record detail lines of the Markdown report, ending with the
horizontal rule the loop appends after every record. -/
def mdDetailBlock (r : WeatherRecord) : List String :=
  ["### Record " ++ pyIntStr r.id ++ " - " ++ r.location,
   "",
   "- **Location:** " ++ r.location,
   "- **Date Range:** " ++ r.startDate ++ " to " ++ r.endDate,
   "- **Coordinates:** " ++ fmt4 r.latitude ++ ", " ++ fmt4 r.longitude,
   "- **Created:** " ++ (match r.createdAt with | some d => fmtYmdHms d | none => "N/A"),
   "- **Updated:** " ++ (match r.updatedAt with | some d => fmtYmdHms d | none => "N/A"),
   ""]
  ++ (if pyTruthyJson r.temperatureData then
        ["#### Weather Data", ""]
        ++ (match jsonGet r.temperatureData "current" with
            | some cur =>
              match jsonGet cur "main" with
              | some mainObj =>
                ["- **Current Temperature:** "
                   ++ pyStrJson (dictGetD mainObj "temp" (Json.str "N/A")) ++ "°C",
                 "- **Humidity:** "
                   ++ pyStrJson (dictGetD mainObj "humidity" (Json.str "N/A")) ++ "%",
                 ""]
              | none => []
            | none => [])
        ++ (match jsonGet r.temperatureData "forecast" with
            | some fc =>
              match jsonGet fc "list" with
              | some (Json.arr items) => ["- **Forecast Periods:** " ++ natStr items.length, ""]
              | some _ => []
              | none => []
            | none => [])
      else [])
  ++ ["---", ""]

/-- `ExportService.export_to_markdown` as its list of lines. -/
def export_to_markdown_lines (now : PyDateTime) (records : List WeatherRecord) :
    List String :=
  ["# Weather Records Report",
   "**Generated on:** " ++ fmtYmdHms now,
   "**Total Records:** " ++ natStr records.length,
   "",
   "## Records Summary",
   "",
   "| ID | Location | Date Range | Coordinates | Created |",
   "|----|----------|------------|-------------|---------|"]
  ++ records.foldl (fun acc r => acc ++ [mdSummaryRow r]) []
  ++ ["", "## Detailed Information", ""]
  ++ records.foldl (fun acc r => acc ++ mdDetailBlock r) []

/-- The joined Markdown document (`"\n".join(markdown)`). -/
def export_to_markdown (now : PyDateTime) (records : List WeatherRecord) : String :=
  String.intercalate "\n" (export_to_markdown_lines now records)

-- ------------------------- date-range validators -------------------------

/-- `app.validate_date_range`: dates are modelled as parsed day numbers
(`none` models a string `strptime` rejects); `today` is `datetime.now().date()`. -/
def validate_date_range_app (today : Int) (s e : Option Int) :
    Except String (Int × Int) :=
  match s, e with
  | some sd, some ed =>
    if sd > ed then .error "Start date cannot be after end date"
    else if sd < today - 365 then .error "Start date cannot be more than 1 year in the past"
    else if ed > today + 7 then .error "End date cannot be more than 7 days in the future"
    else .ok (sd, ed)
  | _, _ => .error "Invalid date format. Use YYYY-MM-DD"

/-- `WeatherService.validate_date_range`, same date modelling. -/
def validate_date_range_ws (today : Int) (s e : Option Int) :
    Except String (Int × Int) :=
  match s, e with
  | some sd, some ed =>
    if sd < today then .error "Start date cannot be in the past"
    else if ed < sd then .error "End date must be after start date"
    else if ed - sd > 7 then .error "Date range cannot exceed 7 days"
    else .ok (sd, ed)
  | _, _ => .error "Invalid date format"

-- ------------------------- weather fetch (both implementations) -------------------------

/-- An outbound request of the weather fetch: the current-conditions
endpoint, or the forecast endpoint with its optional `cnt` parameter. -/
inductive WReq where
  | current : WReq
  | forecast : Option Nat → WReq
deriving DecidableEq, Repr

/-- Outcome of one `requests.get`: an HTTP response with a status and parsed
body, or a raised exception (network failure etc.). -/
inductive Http (α : Type) where
  | resp (status : Nat) (body : α)
  | exn (msg : String)

/-- Forecast payload as `weather_service` reads it: the `list` key if
present (items opaque at this level). -/
structure WsForecastBody where
  list : Option (List Json)

/-- Slice count used by the retry condition: `len(payload.get('list', []))`. -/
def wsSliceCount (b : WsForecastBody) : Nat := (b.list.getD []).length

/-- Upstream oracle for `WeatherService.fetch_weather_data`: the responses
the three possible requests would receive. -/
structure WsUpstream where
  current : Http Json
  forecast1 : Http WsForecastBody
  forecast2 : Http WsForecastBody

/-- Merged result of a successful `weather_service` fetch. -/
structure WsWeatherData where
  current : Json
  forecast : WsForecastBody

/-- `WeatherService.fetch_weather_data`, returning the outbound request
trace together with the result. -/
def fetch_weather_data (u : WsUpstream) : List WReq × Except String WsWeatherData :=
  match u.current with
  | .exn m => ([WReq.current], .error ("Weather data fetch error: " ++ m))
  | .resp st cur =>
    if st ≠ 200 then
      ([WReq.current], .error ("OpenWeather API current weather error: " ++ natStr st))
    else
      match u.forecast1 with
      | .exn m =>
        ([WReq.current, WReq.forecast none], .error ("Weather data fetch error: " ++ m))
      | .resp st1 b1 =>
        if st1 = 200 ∧ wsSliceCount b1 < 40 then
          match u.forecast2 with
          | .exn m =>
            ([WReq.current, WReq.forecast none, WReq.forecast (some 40)],
             .error ("Weather data fetch error: " ++ m))
          | .resp st2 b2 =>
            if st2 ≠ 200 then
              ([WReq.current, WReq.forecast none, WReq.forecast (some 40)],
               .error ("OpenWeather API forecast error: " ++ natStr st2))
            else
              ([WReq.current, WReq.forecast none, WReq.forecast (some 40)],
               .ok ⟨cur, b2⟩)
        else
          if st1 ≠ 200 then
            ([WReq.current, WReq.forecast none],
             .error ("OpenWeather API forecast error: " ++ natStr st1))
          else ([WReq.current, WReq.forecast none], .ok ⟨cur, b1⟩)

/-- A raw forecast slice as `app.get_weather_data` reads it (each field is
the value of the corresponding key when present). -/
structure RawSlice where
  dt : Option Int
  main : Option Json
  weather : Option Json
  wind : Option Json
  pop : Option Json
  visibility : Option Json
  clouds : Option Json
  dt_txt : Option String

/-- Current-conditions payload as `app.get_weather_data` reads it. -/
structure AppCurrentBody where
  name : Option String
  sys : Option Json
  coord : Option Json
  main : Option Json
  weather : Option Json
  wind : Option Json
  visibility : Option Json
  dt : Option Int

/-- Forecast payload for the app-side fetch. -/
structure AppForecastBody where
  list : Option (List RawSlice)

/-- Upstream oracle for `app.get_weather_data`. -/
structure AppUpstream where
  current : Http AppCurrentBody
  forecast : Http AppForecastBody

/-- One reshaped forecast slice in the internal format. -/
structure NSlice where
  dt : Int
  main : Json
  weather : Json
  wind : Json
  pop : Json
  visibility : Json
  clouds : Json
  dt_txt : String

/-- The reshaping loop keeps a slice only when its `dt` is truthy
(present and nonzero). -/
def truthyDt (s : RawSlice) : Bool :=
  match s.dt with
  | some n => decide (n ≠ 0)
  | none => false

/-- Reshape one kept slice (`int(datetime.fromtimestamp(ts).timestamp())`
is the identity on the integer timestamp). -/
def reshapeSlice (s : RawSlice) (ts : Int) : NSlice :=
  { dt := ts
    main := s.main.getD (Json.obj [])
    weather := s.weather.getD (Json.arr [])
    wind := s.wind.getD (Json.obj [])
    pop := s.pop.getD (Json.num 0 0)
    visibility := s.visibility.getD (Json.num 0 0)
    clouds := s.clouds.getD (Json.obj [])
    dt_txt := s.dt_txt.getD "" }

/-- The `for`-loop over `forecast_data['list']` with its `if timestamp:` filter. -/
def reshapeList (slices : List RawSlice) : List NSlice :=
  slices.foldl (fun acc s =>
    match s.dt with
    | some ts => if ts ≠ 0 then acc ++ [reshapeSlice s ts] else acc
    | none => acc) []

/-- The merged structure `app.get_weather_data` returns on success. -/
structure AppWeatherData where
  current : List (String × Json)
  forecastList : List NSlice
  hourlyList : List NSlice
  dateRangeStart : String
  dateRangeEnd : String

/-- The `current_weather` dict with its per-key defaults. -/
def buildCurrentWeather (cb : AppCurrentBody) (lat lon : Dec) (nowTs : Int) :
    List (String × Json) :=
  [("name", Json.str (cb.name.getD "Current Location")),
   ("sys", cb.sys.getD (Json.obj [("country", Json.str "US")])),
   ("coord", cb.coord.getD (Json.obj
     [("lat", Json.num lat.man lat.exp), ("lon", Json.num lon.man lon.exp)])),
   ("main", cb.main.getD (Json.obj [])),
   ("weather", cb.weather.getD (Json.arr [])),
   ("wind", cb.wind.getD (Json.obj [])),
   ("visibility", cb.visibility.getD (Json.num 0 0)),
   ("dt", Json.num (cb.dt.getD nowTs) 0)]

/-- `app.get_weather_data`, returning the request trace and the result. -/
def get_weather_data (u : AppUpstream) (lat lon : Dec) (startDate endDate : String)
    (nowTs : Int) : List WReq × Except String AppWeatherData :=
  match u.current with
  | .exn m => ([WReq.current], .error m)
  | .resp st cb =>
    if st ≠ 200 then
      ([WReq.current], .error ("OpenWeather API current weather error: " ++ natStr st))
    else
      match u.forecast with
      | .exn m => ([WReq.current, WReq.forecast none], .error m)
      | .resp st1 fb =>
        if st1 ≠ 200 then
          ([WReq.current, WReq.forecast none],
           .error ("OpenWeather API forecast error: " ++ natStr st1))
        else
          ([WReq.current, WReq.forecast none],
           .ok { current := buildCurrentWeather cb lat lon nowTs
                 forecastList := reshapeList (fb.list.getD [])
                 hourlyList := reshapeList (fb.list.getD [])
                 dateRangeStart := startDate
                 dateRangeEnd := endDate })

-- ------------------------- CRUD chains (app routes and WeatherService) -------------------------

/-- A stored row of `weather_records`, with the fields the update chain can
touch; dates as day numbers, `updatedAt` as a timestamp. -/
structure DbRecord where
  id : Int
  location : String
  latitude : Dec
  longitude : Dec
  startDate : Int
  endDate : Int
  temperatureData : Json
  updatedAt : Int

/-- A successful geocoding result. -/
structure GeoOk where
  latitude : Dec
  longitude : Dec
  address : String

/-- Oracles for one app-route request: the clock, the geocoder and weather
outcomes, and whether the transaction commit succeeds. Per the storage
boundary (spec §5) a session publishes staged changes only on a successful
commit; any return without commit leaves the store unchanged. -/
structure AppEnv where
  today : Int
  nowTs : Int
  geocode : String → Except String GeoOk
  weather : Dec → Dec → Int → Int → Except String Json
  commitOk : Bool

/-- Body of a create request: each field is `none` when missing (the
`all([...])` truthiness check also treats empty strings as missing); a
present date field carries `none` when the string does not parse. -/
structure CreateBody where
  location : Option String
  startDate : Option (Option Int)
  endDate : Option (Option Int)

/-- `POST /api/weather` (`app.create_weather_record`): returns the HTTP
status and the committed store. -/
def app_create_weather_record (env : AppEnv) (σ : List DbRecord)
    (body : Option CreateBody) (newId : Int) : Nat × List DbRecord :=
  match body with
  | none => (400, σ)
  | some b =>
    match b.location, b.startDate, b.endDate with
    | some loc, some sraw, some eraw =>
      if loc = "" then (400, σ)
      else
        match validate_date_range_app env.today sraw eraw with
        | .error _ => (400, σ)
        | .ok (sd, ed) =>
          match env.geocode loc with
          | .error _ => (400, σ)
          | .ok g =>
            match env.weather g.latitude g.longitude sd ed with
            | .error _ => (500, σ)
            | .ok w =>
              if env.commitOk then
                (201, σ ++ [{ id := newId, location := loc, latitude := g.latitude,
                              longitude := g.longitude, startDate := sd, endDate := ed,
                              temperatureData := w, updatedAt := env.nowTs }])
              else (500, σ)
    | _, _, _ => (400, σ)

/-- Body of an update request: a field is `none` when its key is absent. -/
structure UpdateBody where
  location : Option String
  startDate : Option (Option Int)
  endDate : Option (Option Int)

/-- Commit of a staged row: replace the row with the same id. -/
def replaceRecord (σ : List DbRecord) (rec : DbRecord) : List DbRecord :=
  σ.map (fun r => if r.id = rec.id then rec else r)

/-- `PUT /api/weather/:id` (`app.update_weather_record`): mutations are
staged on the session object and published only by the final commit; every
early error return leaves the committed store untouched (session teardown
rolls the staged state back). -/
def app_update_weather_record (env : AppEnv) (σ : List DbRecord) (rid : Int)
    (body : Option UpdateBody) : Nat × List DbRecord :=
  match σ.find? (fun r => r.id == rid) with
  | none => (404, σ)
  | some rec0 =>
    match body with
    | none => (400, σ)
    | some b =>
      match (match b.location with
             | none => Except.ok rec0
             | some loc =>
               match env.geocode loc with
               | .error _ => Except.error 400
               | .ok g => Except.ok { rec0 with
                   location := loc
                   latitude := g.latitude
                   longitude := g.longitude }) with
      | .error c => (c, σ)
      | .ok rec1 =>
        match (if b.startDate.isSome ∨ b.endDate.isSome then
                 match validate_date_range_app env.today
                     (b.startDate.getD (some rec1.startDate))
                     (b.endDate.getD (some rec1.endDate)) with
                 | .error _ => Except.error 400
                 | .ok (sd, ed) => Except.ok { rec1 with startDate := sd, endDate := ed }
               else Except.ok rec1) with
        | .error c => (c, σ)
        | .ok rec2 =>
          match (if b.location.isSome ∨ b.startDate.isSome ∨ b.endDate.isSome then
                   match env.weather rec2.latitude rec2.longitude
                       rec2.startDate rec2.endDate with
                   | .error _ => Except.error 500
                   | .ok w => Except.ok { rec2 with temperatureData := w }
                 else Except.ok rec2) with
          | .error c => (c, σ)
          | .ok rec3 =>
            if env.commitOk then
              (200, replaceRecord σ { rec3 with updatedAt := env.nowTs })
            else (500, σ)

/-- Oracles for one `WeatherService` call. -/
structure WsEnv where
  today : Int
  nowTs : Int
  geocode : String → Except String GeoOk
  fetch : Dec → Dec → Except String Json
  commitOk : Bool

/-- `WeatherService.create_weather_record`: add and commit, rolling back on
a commit failure. -/
def ws_create_weather_record (env : WsEnv) (σ : List DbRecord) (loc : String)
    (sd ed : Int) (lat lon : Dec) (td : Json) (newId : Int) : Bool × List DbRecord :=
  if env.commitOk then
    (true, σ ++ [{ id := newId, location := loc, latitude := lat, longitude := lon,
                   startDate := sd, endDate := ed, temperatureData := td,
                   updatedAt := env.nowTs }])
  else (false, σ)

/-- `WeatherService.update_weather_record`: validate location, dates and
fetch before assigning any field, then commit (rollback on failure). -/
def ws_update_weather_record (env : WsEnv) (σ : List DbRecord) (rid : Int)
    (loc : String) (sraw eraw : Option Int) : Bool × List DbRecord :=
  match σ.find? (fun r => r.id == rid) with
  | none => (false, σ)
  | some rec0 =>
    match env.geocode loc with
    | .error _ => (false, σ)
    | .ok g =>
      match validate_date_range_ws env.today sraw eraw with
      | .error _ => (false, σ)
      | .ok (sd, ed) =>
        match env.fetch g.latitude g.longitude with
        | .error _ => (false, σ)
        | .ok w =>
          if env.commitOk then
            (true, replaceRecord σ { rec0 with
                location := loc
                latitude := g.latitude
                longitude := g.longitude
                startDate := sd
                endDate := ed
                temperatureData := w
                updatedAt := env.nowTs })
          else (false, σ)

-- ------------------------- most descriptive weather -------------------------

/-- One hourly slice as `get_most_descriptive_weather` reads it (only the
description participates in the computation). -/
structure HourlyItem where
  description : String
deriving DecidableEq, Repr

/-- One step of the counting dict `weather_counts[d] = weather_counts.get(d, 0) + 1`:
insertion order is preserved, an existing key is bumped in place. -/
def bump (m : List (String × Nat)) (k : String) : List (String × Nat) :=
  if m.any (fun p => p.1 == k) then
    m.map (fun p => if p.1 == k then (p.1, p.2 + 1) else p)
  else m ++ [(k, 1)]

/-- The counting dict built over the lower-cased descriptions. -/
def weatherCounts (descs : List String) : List (String × Nat) :=
  descs.foldl bump []

/-- Python `max(items, key=lambda x: x[1])`: the first element attaining the
maximal count wins (a later element replaces only on strictly greater). -/
def pyMaxBySnd : String × Nat → List (String × Nat) → String × Nat
  | best, [] => best
  | best, p :: ps => pyMaxBySnd (if p.2 > best.2 then p else best) ps

/-- The `weather_mapping` dict, in its insertion order. -/
def weather_mapping : List (String × String) :=
  [("clouds", "Partly Cloudy"), ("clear", "Clear Sky"), ("rain", "Light Rain"),
   ("snow", "Light Snow"), ("thunderstorm", "Thunderstorm"), ("drizzle", "Light Drizzle"),
   ("mist", "Misty"), ("fog", "Foggy"), ("haze", "Hazy")]

/-- The mapping scan: first key that occurs as a substring of the modal
description wins; otherwise the description is title-cased. -/
def mapDescription (desc : String) : String :=
  match weather_mapping.find? (fun kv => pyIn kv.1 desc) with
  | some kv => kv.2
  | none => pyTitle desc

/-- `WeatherService.get_most_descriptive_weather`. The empty-counts branch
is unreachable for nonempty input (Python's `max` would raise there). -/
def get_most_descriptive_weather (hourly : List HourlyItem) : String :=
  if hourly = [] then "Mixed Conditions"
  else
    match weatherCounts (hourly.map (fun item => pyLower item.description)) with
    | [] => "Mixed Conditions"
    | c :: cs => mapDescription (pyMaxBySnd c cs).1

/-- Keys of a list in order of first occurrence. -/
def firstDedup : List String → List String
  | [] => []
  | x :: xs => x :: (firstDedup xs).filter (fun y => y ≠ x)

/-- The mode selection as the spec words it: among the keys in first-seen
insertion order, the first one whose occurrence count is maximal. -/
def specMode (descs : List String) : Option String :=
  let ks := firstDedup descs
  ks.find? (fun k => ks.all (fun k2 => descs.count k2 ≤ descs.count k))

/-- Reference definition following the spec's words for the
"most descriptive weather" algorithm: count occurrences of each lower-cased
description, take the mode with ties broken by first maximum encountered
over first-seen insertion order, map the fixed substring keys in their
listed order, title-case otherwise, and return "Mixed Conditions" for an
empty slice list. -/
def spec_most_descriptive (hourly : List HourlyItem) : String :=
  if hourly = [] then "Mixed Conditions"
  else
    match specMode (hourly.map (fun item => pyLower item.description)) with
    | some modal => mapDescription modal
    | none => "Mixed Conditions"

/-- Whether a line starts with the given prefix. -/
def linePrefixed (p l : String) : Bool := p.data.isPrefixOf l.data

/-- Number of horizontal-rule lines in a Markdown document's line list. -/
def hrLineCount (lines : List String) : Nat := lines.countP (fun l => l == "---")

/-- Number of `### Record` subsection headings in a Markdown document's
line list. -/
def recHeadCount (lines : List String) : Nat :=
  lines.countP (fun l => linePrefixed "### Record" l)

-- ------------------------- concrete fixtures -------------------------

/-- A fixed generation timestamp for concrete runs. -/
def sampleNow : PyDateTime := ⟨2025, 6, 1, 12, 0, 0⟩

/-- A second, different generation timestamp. -/
def sampleNow2 : PyDateTime := ⟨2025, 6, 2, 13, 30, 5⟩

/-- A stored record whose `temperature_data` column is NULL. -/
def sampleRecord1 : WeatherRecord :=
  { id := 1, location := "Paris", startDate := "2025-06-02", endDate := "2025-06-04",
    latitude := ⟨488566, 4⟩, longitude := ⟨23522, 4⟩,
    createdAt := some ⟨2025, 6, 1, 12, 0, 0⟩, updatedAt := some ⟨2025, 6, 1, 12, 0, 0⟩,
    temperatureData := Json.null }

/-- A stored record with a full `temperature_data` payload. -/
def sampleRecord2 : WeatherRecord :=
  { id := 2, location := "London", startDate := "2025-06-03", endDate := "2025-06-05",
    latitude := ⟨515074, 4⟩, longitude := ⟨-1278, 4⟩,
    createdAt := some ⟨2025, 6, 1, 9, 30, 0⟩, updatedAt := none,
    temperatureData := Json.obj
      [("current", Json.obj [("main", Json.obj
          [("temp", Json.num 155 1), ("humidity", Json.num 60 0)])]),
       ("forecast", Json.obj [("list", Json.arr [Json.obj []])])] }

/-- A current-conditions body with every optional key absent. -/
def sampleCB : AppCurrentBody :=
  { name := none, sys := none, coord := none, main := none,
    weather := none, wind := none, visibility := none, dt := none }

/-- A forecast slice carrying no `dt` key (falsy timestamp). -/
def sampleSliceNoDt : RawSlice :=
  { dt := none, main := none, weather := none, wind := none,
    pop := none, visibility := none, clouds := none, dt_txt := none }

/-- An app-side upstream where both calls succeed and the forecast payload
has exactly one slice, whose `dt` is absent. -/
def sampleAppUpstream : AppUpstream :=
  { current := Http.resp 200 sampleCB,
    forecast := Http.resp 200 { list := some [sampleSliceNoDt] } }

end Weather

-- ===================== end of definitions (JSON core) =====================

namespace Weather

theorem skipWs_cons_not (c : Char) (cs : List Char) (h : isWsChar c = false) :
    skipWs (c :: cs) = c :: cs := by
  simp [skipWs, h]

theorem skipWs_append_ws (w cs : List Char) (hw : ∀ c ∈ w, isWsChar c = true) :
    skipWs (w ++ cs) = skipWs cs := by
  induction w with
  | nil => rfl
  | cons c t ih =>
    have hc : isWsChar c = true := hw c (by simp)
    simp only [List.cons_append, skipWs, hc, if_true]
    exact ih (fun d hd => hw d (by simp [hd]))

theorem nlIndent_ws (l : Nat) : ∀ c ∈ nlIndent l, isWsChar c = true := by
  intro c hc
  simp only [nlIndent, List.mem_cons] at hc
  rcases hc with rfl | hc
  · decide
  · rcases List.eq_of_mem_replicate hc with rfl
    decide

theorem skipWs_nlIndent (l : Nat) (cs : List Char) :
    skipWs (nlIndent l ++ cs) = skipWs cs :=
  skipWs_append_ws _ _ (nlIndent_ws l)

theorem parseStrRest_escape (cs rest : List Char) :
    parseStrRest (escapeL cs ++ ('"' :: rest)) = some (String.mk cs, rest) := by
  induction cs with
  | nil =>
    rw [escapeL, parseStrRest.eq_def]
    simp
  | cons c t ih =>
    by_cases hc : c = '"' ∨ c = '\\'
    · simp only [escapeL, escapeChar, if_pos hc, List.cons_append, List.append_assoc]
      rw [parseStrRest.eq_def]
      have h1 : ('\\' : Char) = '"' ↔ False := by decide
      simp [h1, hc, ih]
    · simp only [escapeL, escapeChar, if_neg hc, List.cons_append, List.append_assoc]
      push_neg at hc
      rw [parseStrRest.eq_def]
      simp [hc.1, hc.2, ih]

theorem natDigitsF_congr (n : Nat) :
    ∀ f1 f2, n < f1 → n < f2 → natDigitsF f1 n = natDigitsF f2 n := by
  induction n using Nat.strong_induction_on with
  | _ n ih =>
    intro f1 f2 h1 h2
    cases f1 with
    | zero => omega
    | succ g1 =>
      cases f2 with
      | zero => omega
      | succ g2 =>
        rw [natDigitsF, natDigitsF]
        by_cases hn : n < 10
        · rw [if_pos hn, if_pos hn]
        · rw [if_neg hn, if_neg hn,
            ih (n / 10) (Nat.div_lt_self (by omega) (by omega)) g1 g2 (by omega) (by omega)]

theorem natDigits_eq (n : Nat) :
    natDigits n = if n < 10 then [digitChar n]
      else natDigits (n / 10) ++ [digitChar (n % 10)] := by
  show natDigitsF (n + 1) n = _
  rw [natDigitsF]
  by_cases hn : n < 10
  · rw [if_pos hn, if_pos hn]
  · rw [if_neg hn, if_neg hn,
      natDigitsF_congr (n / 10) n (n / 10 + 1) (by omega) (by omega)]
    rfl

theorem digitVal_digitChar (n : Nat) (h : n < 10) : digitVal (digitChar n) = n := by
  interval_cases n <;> decide

theorem isDigitChar_digitChar (n : Nat) (h : n < 10) :
    isDigitChar (digitChar n) = true := by
  interval_cases n <;> decide

theorem natDigits_all_digits (n : Nat) : ∀ c ∈ natDigits n, isDigitChar c = true := by
  induction n using Nat.strong_induction_on with
  | _ n ih =>
    rw [natDigits_eq]
    split
    case isTrue h =>
      intro c hc
      simp only [List.mem_singleton] at hc
      subst hc
      exact isDigitChar_digitChar n h
    case isFalse h =>
      intro c hc
      rw [List.mem_append] at hc
      rcases hc with hc | hc
      · exact ih (n / 10) (Nat.div_lt_self (by omega) (by omega)) c hc
      · simp only [List.mem_singleton] at hc
        subst hc
        exact isDigitChar_digitChar _ (Nat.mod_lt _ (by omega))

theorem natDigits_ne_nil (n : Nat) : natDigits n ≠ [] := by
  rw [natDigits_eq]
  split <;> simp

theorem natDigits_head (n : Nat) :
    ∃ k t, k < 10 ∧ natDigits n = digitChar k :: t := by
  induction n using Nat.strong_induction_on with
  | _ n ih =>
    rw [natDigits_eq]
    split
    case isTrue h => exact ⟨n, [], h, rfl⟩
    case isFalse h =>
      obtain ⟨k, t, hk, ht⟩ := ih (n / 10) (Nat.div_lt_self (by omega) (by omega))
      exact ⟨k, t ++ [digitChar (n % 10)], hk, by rw [ht]; rfl⟩

theorem natOfDigitsAux_eq (ds : List Char) :
    ∀ acc, natOfDigitsAux acc ds = acc * 10 ^ ds.length + natOfDigits ds := by
  induction ds with
  | nil =>
    intro acc
    show acc = acc * 10 ^ 0 + 0
    omega
  | cons c t ih =>
    intro acc
    rw [show natOfDigitsAux acc (c :: t) = natOfDigitsAux (acc * 10 + digitVal c) t from rfl]
    rw [show natOfDigits (c :: t) = natOfDigitsAux (0 * 10 + digitVal c) t from rfl]
    rw [ih, ih (0 * 10 + digitVal c), List.length_cons]
    ring

theorem natOfDigitsAux_append (a b : List Char) :
    ∀ acc, natOfDigitsAux acc (a ++ b) = natOfDigitsAux (natOfDigitsAux acc a) b := by
  induction a with
  | nil => intro acc; rfl
  | cons c t ih =>
    intro acc
    rw [List.cons_append]
    rw [show natOfDigitsAux acc (c :: (t ++ b))
          = natOfDigitsAux (acc * 10 + digitVal c) (t ++ b) from rfl]
    rw [show natOfDigitsAux acc (c :: t) = natOfDigitsAux (acc * 10 + digitVal c) t from rfl]
    exact ih _

theorem natOfDigits_append (a b : List Char) :
    natOfDigits (a ++ b) = natOfDigits a * 10 ^ b.length + natOfDigits b := by
  rw [show natOfDigits (a ++ b) = natOfDigitsAux 0 (a ++ b) from rfl]
  rw [natOfDigitsAux_append, natOfDigitsAux_eq]
  rfl

theorem natOfDigits_natDigits (n : Nat) : natOfDigits (natDigits n) = n := by
  induction n using Nat.strong_induction_on with
  | _ n ih =>
    rw [natDigits_eq]
    split
    case isTrue h =>
      rw [show natOfDigits [digitChar n] = 0 * 10 + digitVal (digitChar n) from rfl]
      rw [digitVal_digitChar n h]
      omega
    case isFalse h =>
      rw [natOfDigits_append, ih (n / 10) (Nat.div_lt_self (by omega) (by omega))]
      have h1 : natOfDigits [digitChar (n % 10)] = n % 10 := by
        rw [show natOfDigits [digitChar (n % 10)]
              = 0 * 10 + digitVal (digitChar (n % 10)) from rfl]
        rw [digitVal_digitChar _ (Nat.mod_lt _ (by omega))]
        omega
      rw [h1]
      simp
      omega

theorem natDigits_length_le (e : Nat) :
    ∀ n, n < 10 ^ e → 0 < e → (natDigits n).length ≤ e := by
  induction e with
  | zero => intro n _ h0; omega
  | succ e ih =>
    intro n h _
    rw [natDigits_eq]
    split
    case isTrue => simp
    case isFalse hn =>
      have h10 : 10 ≤ n := by omega
      have he : 0 < e := by
        rcases Nat.eq_zero_or_pos e with rfl | he
        · simp at h; omega
        · exact he
      have hdiv : n / 10 < 10 ^ e := by
        rw [Nat.div_lt_iff_lt_mul (by omega)]
        calc n < 10 ^ (e + 1) := h
          _ = 10 ^ e * 10 := by ring
      have := ih (n / 10) hdiv he
      simp only [List.length_append, List.length_singleton]
      omega

theorem takeDigits_append (ds rest : List Char)
    (hd : ∀ c ∈ ds, isDigitChar c = true) (hr : headNotDigit rest) :
    takeDigits (ds ++ rest) = (ds, rest) := by
  induction ds with
  | nil =>
    simp only [List.nil_append]
    cases rest with
    | nil => rfl
    | cons c t =>
      have hc : isDigitChar c = false := hr
      simp [takeDigits, hc]
  | cons c t ih =>
    have hc := hd c (by simp)
    have ht := ih (fun d hdm => hd d (by simp [hdm]))
    simp [takeDigits, hc, ht]

theorem natOfDigits_replicate_append (z : Nat) (ds : List Char) :
    natOfDigits (List.replicate z '0' ++ ds) = natOfDigits ds := by
  unfold natOfDigits
  rw [natOfDigitsAux_append]
  have h0 : natOfDigitsAux 0 (List.replicate z '0') = 0 := by
    induction z with
    | zero => rfl
    | succ z ih =>
      rw [List.replicate_succ]
      rw [show natOfDigitsAux 0 ('0' :: List.replicate z '0')
            = natOfDigitsAux (0 * 10 + digitVal '0') (List.replicate z '0') from rfl]
      rw [show (0 * 10 + digitVal '0' : Nat) = 0 by decide]
      exact ih
  rw [h0]

theorem padDigits_all_digits (w k : Nat) :
    ∀ c ∈ padDigits w k, isDigitChar c = true := by
  intro c hc
  rw [padDigits, List.mem_append] at hc
  rcases hc with hc | hc
  · rcases List.eq_of_mem_replicate hc with rfl
    decide
  · exact natDigits_all_digits k c hc

theorem padDigits_ne_nil (w k : Nat) : padDigits w k ≠ [] := by
  intro h
  rw [padDigits] at h
  exact natDigits_ne_nil k (List.append_eq_nil.mp h).2

theorem padDigits_length (w k : Nat) (h : (natDigits k).length ≤ w) :
    (padDigits w k).length = w := by
  simp only [padDigits, List.length_append, List.length_replicate]
  omega

theorem natOfDigits_padDigits (w k : Nat) : natOfDigits (padDigits w k) = k := by
  rw [padDigits, natOfDigits_replicate_append, natOfDigits_natDigits]

theorem headNotDigit_cons (c : Char) (cs : List Char) (h : isDigitChar c = false) :
    headNotDigit (c :: cs) := h

theorem numSafe_headNotDigit (rest : List Char) (hr : numSafe rest) :
    headNotDigit rest := by
  cases rest with
  | nil => trivial
  | cons c t => exact hr.1

theorem parseNumCore_int (n : Nat) (rest : List Char) (hr : numSafe rest) (neg : Bool) :
    parseNumCore neg (natDigits n ++ rest) = some (.num (applySign neg n) 0, rest) := by
  obtain ⟨k, t, hk, ht⟩ := natDigits_head n
  have htd := takeDigits_append (natDigits n) rest (natDigits_all_digits n)
    (numSafe_headNotDigit rest hr)
  rw [ht] at htd ⊢
  unfold parseNumCore
  rw [htd]
  have hval : natOfDigits (digitChar k :: t) = n := by rw [← ht, natOfDigits_natDigits]
  cases rest with
  | nil =>
    show some (Json.num (applySign neg (natOfDigits (digitChar k :: t))) 0, ([] : List Char))
        = some (Json.num (applySign neg n) 0, ([] : List Char))
    rw [hval]
  | cons c r =>
    show (if c = '.' then _ else
        some (Json.num (applySign neg (natOfDigits (digitChar k :: t))) 0, c :: r))
        = some (Json.num (applySign neg n) 0, c :: r)
    rw [if_neg hr.2, hval]

theorem parseNumCore_dec (n e : Nat) (he : 0 < e) (rest : List Char)
    (hr : numSafe rest) (neg : Bool) :
    parseNumCore neg (natDigits (n / 10 ^ e) ++ '.' :: (padDigits e (n % 10 ^ e) ++ rest))
      = some (.num (applySign neg n) e, rest) := by
  obtain ⟨k, t, hk, ht⟩ := natDigits_head (n / 10 ^ e)
  have h1 := takeDigits_append (natDigits (n / 10 ^ e))
    ('.' :: (padDigits e (n % 10 ^ e) ++ rest)) (natDigits_all_digits _)
    (headNotDigit_cons _ _ (by decide))
  have hmod : n % 10 ^ e < 10 ^ e := Nat.mod_lt _ (Nat.pos_pow_of_pos e (by omega))
  have hlenp : (padDigits e (n % 10 ^ e)).length = e :=
    padDigits_length e _ (natDigits_length_le e _ hmod he)
  have h2 := takeDigits_append (padDigits e (n % 10 ^ e)) rest
    (padDigits_all_digits _ _) (numSafe_headNotDigit rest hr)
  rcases hp : padDigits e (n % 10 ^ e) with _ | ⟨f, fs⟩
  · exact absurd hp (padDigits_ne_nil e _)
  rw [hp] at h1 h2 hlenp
  rw [ht] at h1 ⊢
  unfold parseNumCore
  rw [h1]
  have hval : natOfDigits ((digitChar k :: t) ++ (f :: fs)) = n := by
    rw [natOfDigits_append, ← ht, natOfDigits_natDigits, ← hp, natOfDigits_padDigits,
      hp, hlenp]
    rw [Nat.mul_comm]
    exact Nat.div_add_mod n (10 ^ e)
  show (if '.' = '.' then _ else _)
      = some (Json.num (applySign neg n) e, rest)
  rw [if_pos rfl, h2]
  show some (Json.num (applySign neg (natOfDigits (digitChar k :: t ++ f :: fs)))
      ((f :: fs).length), rest)
      = some (Json.num (applySign neg n) e, rest)
  rw [hval, hlenp]

theorem numCore_head (n e : Nat) :
    ∃ k t, k < 10 ∧ numCore n e = digitChar k :: t := by
  rw [numCore]
  split
  · exact natDigits_head n
  · obtain ⟨k, t, hk, ht⟩ := natDigits_head (n / 10 ^ e)
    exact ⟨k, t ++ '.' :: padDigits e (n % 10 ^ e), hk, by rw [ht]; rfl⟩

theorem parseNumCore_numCore (n e : Nat) (rest : List Char) (hr : numSafe rest)
    (neg : Bool) :
    parseNumCore neg (numCore n e ++ rest) = some (.num (applySign neg n) e, rest) := by
  by_cases he : e = 0
  · subst he
    rw [numCore, if_pos rfl]
    exact parseNumCore_int n rest hr neg
  · rw [numCore, if_neg he]
    rw [List.append_assoc, List.cons_append]
    exact parseNumCore_dec n e (by omega) rest hr neg

theorem applySign_true (n : Nat) : applySign true n = -(n : Int) := rfl

theorem applySign_false (n : Nat) : applySign false n = (n : Int) := rfl

theorem parseNum_numChars (m : Int) (e : Nat) (rest : List Char) (hr : numSafe rest) :
    parseNum (numChars m e ++ rest) = some (Json.num m e, rest) := by
  by_cases hm : m < 0
  · rw [numChars, if_pos hm, List.cons_append]
    show (if '-' = '-' then parseNumCore true (numCore m.natAbs e ++ rest)
        else parseNumCore false ('-' :: (numCore m.natAbs e ++ rest)))
        = some (Json.num m e, rest)
    rw [if_pos rfl, parseNumCore_numCore m.natAbs e rest hr true, applySign_true]
    have h1 : -(m.natAbs : Int) = m := by omega
    rw [h1]
  · rw [numChars, if_neg hm]
    obtain ⟨k, t, hk, hh⟩ := numCore_head m.natAbs e
    rw [hh, List.cons_append]
    have hkne : digitChar k ≠ '-' := by interval_cases k <;> decide
    show (if digitChar k = '-' then parseNumCore true (t ++ rest)
        else parseNumCore false (digitChar k :: (t ++ rest)))
        = some (Json.num m e, rest)
    rw [if_neg hkne, ← List.cons_append, ← hh,
      parseNumCore_numCore m.natAbs e rest hr false, applySign_false]
    have h1 : (m.natAbs : Int) = m := by omega
    rw [h1]

theorem parseVal_ws (fuel : Nat) (w cs : List Char) (hw : ∀ c ∈ w, isWsChar c = true) :
    parseVal fuel (w ++ cs) = parseVal fuel cs := by
  cases fuel with
  | zero => rw [parseVal, parseVal]
  | succ f => rw [parseVal, parseVal, skipWs_append_ws w cs hw]

theorem parseArrTail_ws (fuel : Nat) (w cs : List Char)
    (hw : ∀ c ∈ w, isWsChar c = true) :
    parseArrTail fuel (w ++ cs) = parseArrTail fuel cs := by
  rw [parseArrTail, parseArrTail, skipWs_append_ws w cs hw]

theorem parseObjTail_ws (fuel : Nat) (w cs : List Char)
    (hw : ∀ c ∈ w, isWsChar c = true) :
    parseObjTail fuel (w ++ cs) = parseObjTail fuel cs := by
  rw [parseObjTail, parseObjTail, skipWs_append_ws w cs hw]

theorem numSafe_items (l l2 : Nat) (xs : List Json) (r : List Char) :
    numSafe (renderItems l xs ++ (nlIndent l2 ++ (']' :: r))) := by
  cases xs with
  | nil => exact ⟨by decide, by decide⟩
  | cons y ys => exact ⟨by decide, by decide⟩

theorem numSafe_kvs (l l2 : Nat) (kvs : List (String × Json)) (r : List Char) :
    numSafe (renderKVs l kvs ++ (nlIndent l2 ++ (rbrace :: r))) := by
  cases kvs with
  | nil => exact ⟨by decide, by decide⟩
  | cons kv kvs2 => exact ⟨by decide, by decide⟩

theorem numChars_head_props (m : Int) (e : Nat) :
    ∃ c t, numChars m e = c :: t ∧ isWsChar c = false ∧ c ≠ 'n' ∧ c ≠ 't' ∧ c ≠ 'f'
      ∧ c ≠ '"' ∧ c ≠ '[' ∧ c ≠ lbrace ∧ c ≠ ']' ∧ c ≠ rbrace := by
  have hsplit : numChars m e = '-' :: numCore m.natAbs e
      ∨ numChars m e = numCore m.natAbs e := by
    rw [numChars]
    split
    · exact Or.inl rfl
    · exact Or.inr rfl
  rcases hsplit with h | h
  · exact ⟨'-', _, h, by decide, by decide, by decide, by decide, by decide, by decide,
      by decide, by decide, by decide⟩
  · obtain ⟨k, t, hk, hh⟩ := numCore_head m.natAbs e
    refine ⟨digitChar k, t, by rw [h, hh], ?_, ?_, ?_, ?_, ?_, ?_, ?_, ?_, ?_⟩ <;>
      interval_cases k <;> decide

theorem renderJ_head (l : Nat) (j : Json) :
    ∃ c t, renderJ l j = c :: t ∧ isWsChar c = false ∧ c ≠ ']' ∧ c ≠ rbrace := by
  cases j with
  | null => exact ⟨'n', _, rfl, by decide, by decide, by decide⟩
  | bool b =>
    cases b with
    | false => exact ⟨'f', _, rfl, by decide, by decide, by decide⟩
    | true => exact ⟨'t', _, rfl, by decide, by decide, by decide⟩
  | num m e =>
    obtain ⟨c, t, hct, p1, _, _, _, _, _, _, p8, p9⟩ := numChars_head_props m e
    exact ⟨c, t, hct, p1, p8, p9⟩
  | str s => exact ⟨'"', _, rfl, by decide, by decide, by decide⟩
  | arr xs =>
    cases xs with
    | nil => exact ⟨'[', _, rfl, by decide, by decide, by decide⟩
    | cons x t => exact ⟨'[', _, rfl, by decide, by decide, by decide⟩
  | obj kvs =>
    cases kvs with
    | nil => exact ⟨lbrace, _, rfl, by decide, by decide, by decide⟩
    | cons kv t => exact ⟨lbrace, _, rfl, by decide, by decide, by decide⟩

mutual

/-- A rendered value, followed by any continuation that cannot extend a
number literal, parses back to exactly that value. -/
theorem parseVal_render : ∀ (j : Json) (l fuel : Nat) (rest : List Char),
    (renderJ l j).length ≤ fuel → numSafe rest →
    parseVal fuel (renderJ l j ++ rest) = some (j, rest)
  | .null, l, fuel, rest, hf, _hr => by
    have hlen : (renderJ l Json.null).length = 4 := rfl
    cases fuel with
    | zero => omega
    | succ f =>
      rw [show renderJ l Json.null ++ rest = 'n' :: 'u' :: 'l' :: 'l' :: rest from rfl]
      rw [parseVal, skipWs_cons_not _ _ (by decide), parseValCore, if_pos rfl, expectNull]
  | .bool true, l, fuel, rest, hf, _hr => by
    have hlen : (renderJ l (Json.bool true)).length = 4 := rfl
    cases fuel with
    | zero => omega
    | succ f =>
      rw [show renderJ l (Json.bool true) ++ rest
            = 't' :: 'r' :: 'u' :: 'e' :: rest from rfl]
      rw [parseVal, skipWs_cons_not _ _ (by decide), parseValCore,
        if_neg (by decide), if_pos rfl, expectTrue]
  | .bool false, l, fuel, rest, hf, _hr => by
    have hlen : (renderJ l (Json.bool false)).length = 5 := rfl
    cases fuel with
    | zero => omega
    | succ f =>
      rw [show renderJ l (Json.bool false) ++ rest
            = 'f' :: 'a' :: 'l' :: 's' :: 'e' :: rest from rfl]
      rw [parseVal, skipWs_cons_not _ _ (by decide), parseValCore,
        if_neg (by decide), if_neg (by decide), if_pos rfl, expectFalse]
  | .num m e, l, fuel, rest, hf, hr => by
    obtain ⟨c, t, hct, p1, p2, p3, p4, p5, p6, p7, _p8, _p9⟩ := numChars_head_props m e
    have hlen : 0 < (renderJ l (Json.num m e)).length := by
      rw [show renderJ l (Json.num m e) = numChars m e from rfl, hct]
      simp
    cases fuel with
    | zero => omega
    | succ f =>
      rw [show renderJ l (Json.num m e) = numChars m e from rfl, hct, List.cons_append,
        parseVal, skipWs_cons_not _ _ p1, parseValCore,
        if_neg p2, if_neg p3, if_neg p4, if_neg p5, if_neg p6, if_neg p7,
        ← List.cons_append, ← hct]
      exact parseNum_numChars m e rest hr
  | .str s, l, fuel, rest, hf, _hr => by
    have hlen : 0 < (renderJ l (Json.str s)).length := by
      rw [show renderJ l (Json.str s) = '"' :: (escapeL s.data ++ ['"']) from rfl]
      simp
    cases fuel with
    | zero => omega
    | succ f =>
      rw [show renderJ l (Json.str s) ++ rest
            = '"' :: (escapeL s.data ++ ('"' :: rest)) from by
          rw [show renderJ l (Json.str s) = '"' :: (escapeL s.data ++ ['"']) from rfl]
          simp]
      rw [parseVal, skipWs_cons_not _ _ (by decide), parseValCore,
        if_neg (by decide), if_neg (by decide), if_neg (by decide), if_pos rfl,
        parseStrRest_escape s.data rest, strResult]
  | .arr [], l, fuel, rest, hf, _hr => by
    have hlen : (renderJ l (Json.arr [])).length = 2 := rfl
    cases fuel with
    | zero => omega
    | succ f =>
      rw [show renderJ l (Json.arr []) ++ rest = '[' :: (']' :: rest) from rfl]
      rw [parseVal, skipWs_cons_not _ _ (by decide), parseValCore,
        if_neg (by decide), if_neg (by decide), if_neg (by decide), if_neg (by decide),
        if_pos rfl]
      rw [skipWs_cons_not _ _ (by decide), parseArrDispatch, if_pos rfl]
  | .arr (x :: xs), l, fuel, rest, hf, _hr => by
    have hrw : renderJ l (Json.arr (x :: xs))
        = '[' :: (nlIndent (l + 1) ++ (renderJ (l + 1) x ++
            (renderItems (l + 1) xs ++ (nlIndent l ++ [']'])))) := rfl
    have hlen : (renderJ l (Json.arr (x :: xs))).length
        = 2 + (nlIndent (l + 1)).length + (renderJ (l + 1) x).length
          + (renderItems (l + 1) xs).length + (nlIndent l).length := by
      rw [hrw]
      simp [List.length_append, List.length_cons]
      try omega
    cases fuel with
    | zero => omega
    | succ f =>
      have hfx : (renderJ (l + 1) x).length ≤ f := by omega
      have hfi : (renderItems (l + 1) xs).length ≤ f := by omega
      have hT : renderJ l (Json.arr (x :: xs)) ++ rest
          = '[' :: (nlIndent (l + 1) ++ (renderJ (l + 1) x ++
              (renderItems (l + 1) xs ++ (nlIndent l ++ (']' :: rest))))) := by
        rw [hrw]
        simp [List.append_assoc]
      rw [hT, parseVal, skipWs_cons_not _ _ (by decide), parseValCore,
        if_neg (by decide), if_neg (by decide), if_neg (by decide), if_neg (by decide),
        if_pos rfl]
      obtain ⟨c, t, hct, q1, q2, _q3⟩ := renderJ_head (l + 1) x
      have hskip : skipWs (nlIndent (l + 1) ++ (renderJ (l + 1) x ++
          (renderItems (l + 1) xs ++ (nlIndent l ++ (']' :: rest)))))
          = c :: (t ++ (renderItems (l + 1) xs ++ (nlIndent l ++ (']' :: rest)))) := by
        rw [skipWs_nlIndent, hct, List.cons_append, skipWs_cons_not _ _ q1]
      rw [hskip, parseArrDispatch, if_neg q2]
      have hpv : parseVal f (nlIndent (l + 1) ++ (renderJ (l + 1) x ++
          (renderItems (l + 1) xs ++ (nlIndent l ++ (']' :: rest)))))
          = some (x, renderItems (l + 1) xs ++ (nlIndent l ++ (']' :: rest))) := by
        rw [parseVal_ws f _ _ (nlIndent_ws (l + 1))]
        exact parseVal_render x (l + 1) f _ hfx (numSafe_items (l + 1) l xs rest)
      rw [hpv, arrStep1]
      rw [parseArrTail_render xs (l + 1) l f rest hfi, arrStep2]
  | .obj [], l, fuel, rest, hf, _hr => by
    have hlen : (renderJ l (Json.obj [])).length = 2 := rfl
    cases fuel with
    | zero => omega
    | succ f =>
      rw [show renderJ l (Json.obj []) ++ rest = lbrace :: (rbrace :: rest) from rfl]
      rw [parseVal, skipWs_cons_not _ _ (by decide), parseValCore,
        if_neg (by decide), if_neg (by decide), if_neg (by decide), if_neg (by decide),
        if_neg (by decide), if_pos rfl]
      rw [skipWs_cons_not _ _ (by decide), parseObjDispatch, if_pos rfl]
  | .obj ((k, v) :: kvs), l, fuel, rest, hf, _hr => by
    have hrw : renderJ l (Json.obj ((k, v) :: kvs))
        = lbrace :: (nlIndent (l + 1) ++ ((strChars k ++ (':' :: ' ' :: renderJ (l + 1) v))
            ++ (renderKVs (l + 1) kvs ++ (nlIndent l ++ [rbrace])))) := rfl
    have hlen : (renderJ l (Json.obj ((k, v) :: kvs))).length
        = 2 + (nlIndent (l + 1)).length + (strChars k).length + 2
          + (renderJ (l + 1) v).length + (renderKVs (l + 1) kvs).length
          + (nlIndent l).length := by
      rw [hrw]
      simp [List.length_append, List.length_cons]
      try omega
    cases fuel with
    | zero => omega
    | succ f =>
      have hfv : (renderJ (l + 1) v).length ≤ f := by omega
      have hfk : (renderKVs (l + 1) kvs).length ≤ f := by omega
      have hT : renderJ l (Json.obj ((k, v) :: kvs)) ++ rest
          = lbrace :: (nlIndent (l + 1) ++ ('"' :: (escapeL k.data ++ ('"' :: (':' :: ' ' ::
              (renderJ (l + 1) v ++ (renderKVs (l + 1) kvs
                ++ (nlIndent l ++ (rbrace :: rest))))))))) := by
        rw [hrw, strChars]
        simp [List.append_assoc]
      rw [hT, parseVal, skipWs_cons_not _ _ (by decide), parseValCore,
        if_neg (by decide), if_neg (by decide), if_neg (by decide), if_neg (by decide),
        if_neg (by decide), if_pos rfl]
      have hskip : skipWs (nlIndent (l + 1) ++ ('"' :: (escapeL k.data ++ ('"' :: (':' :: ' ' ::
          (renderJ (l + 1) v ++ (renderKVs (l + 1) kvs
            ++ (nlIndent l ++ (rbrace :: rest)))))))))
          = '"' :: (escapeL k.data ++ ('"' :: (':' :: ' ' ::
              (renderJ (l + 1) v ++ (renderKVs (l + 1) kvs
                ++ (nlIndent l ++ (rbrace :: rest))))))) := by
        rw [skipWs_nlIndent, skipWs_cons_not _ _ (by decide)]
      rw [hskip, parseObjDispatch, if_neg (by decide), if_pos rfl]
      rw [parseStrRest_escape k.data _, objKey]
      rw [skipWs_cons_not _ _ (by decide), objColon, if_pos rfl]
      have hpv : parseVal f (' ' :: (renderJ (l + 1) v ++ (renderKVs (l + 1) kvs
          ++ (nlIndent l ++ (rbrace :: rest)))))
          = some (v, renderKVs (l + 1) kvs ++ (nlIndent l ++ (rbrace :: rest))) := by
        rw [show (' ' :: (renderJ (l + 1) v ++ (renderKVs (l + 1) kvs
              ++ (nlIndent l ++ (rbrace :: rest)))))
              = [' '] ++ (renderJ (l + 1) v ++ (renderKVs (l + 1) kvs
                ++ (nlIndent l ++ (rbrace :: rest)))) from rfl]
        rw [parseVal_ws f [' '] _ (by intro c hc; simp at hc; subst hc; decide)]
        exact parseVal_render v (l + 1) f _ hfv (numSafe_kvs (l + 1) l kvs rest)
      rw [hpv, objValue]
      rw [parseObjTail_render kvs (l + 1) l f rest hfk, objTailResult]
termination_by j _l _fuel _rest _hf _hr => sizeOf j

/-- Rendered later array items followed by the closing bracket parse back. -/
theorem parseArrTail_render : ∀ (xs : List Json) (l l2 fuel : Nat) (rest : List Char),
    (renderItems l xs).length ≤ fuel →
    parseArrTail fuel (renderItems l xs ++ (nlIndent l2 ++ (']' :: rest)))
      = some (xs, rest)
  | [], l, l2, fuel, rest, _hf => by
    rw [show renderItems l ([] : List Json) = [] from rfl, List.nil_append,
      parseArrTail, skipWs_nlIndent, skipWs_cons_not _ _ (by decide)]
    cases fuel with
    | zero => rw [parseArrTailCore, if_pos rfl]
    | succ f => rw [parseArrTailCore, if_pos rfl]
  | y :: ys, l, l2, fuel, rest, hf => by
    have hrw : renderItems l (y :: ys)
        = ',' :: (nlIndent l ++ (renderJ l y ++ renderItems l ys)) := rfl
    have hlen : (renderItems l (y :: ys)).length
        = 1 + (nlIndent l).length + (renderJ l y).length + (renderItems l ys).length := by
      rw [hrw]
      simp [List.length_append, List.length_cons]
      try omega
    cases fuel with
    | zero => omega
    | succ f =>
      have hfy : (renderJ l y).length ≤ f := by omega
      have hfi : (renderItems l ys).length ≤ f := by omega
      have hT : renderItems l (y :: ys) ++ (nlIndent l2 ++ (']' :: rest))
          = ',' :: (nlIndent l ++ (renderJ l y
              ++ (renderItems l ys ++ (nlIndent l2 ++ (']' :: rest))))) := by
        rw [hrw]
        simp [List.append_assoc]
      rw [hT, parseArrTail, skipWs_cons_not _ _ (by decide), parseArrTailCore,
        if_neg (by decide), if_pos rfl]
      have hpv : parseVal f (nlIndent l ++ (renderJ l y
          ++ (renderItems l ys ++ (nlIndent l2 ++ (']' :: rest)))))
          = some (y, renderItems l ys ++ (nlIndent l2 ++ (']' :: rest))) := by
        rw [parseVal_ws f _ _ (nlIndent_ws l)]
        exact parseVal_render y l f _ hfy (numSafe_items l l2 ys rest)
      rw [hpv, arrTailStep, parseArrTail_render ys l l2 f rest hfi, arrTailStep2]
termination_by xs _l _l2 _fuel _rest _hf => sizeOf xs

/-- Rendered later object members followed by the closing brace parse back. -/
theorem parseObjTail_render :
    ∀ (kvs : List (String × Json)) (l l2 fuel : Nat) (rest : List Char),
    (renderKVs l kvs).length ≤ fuel →
    parseObjTail fuel (renderKVs l kvs ++ (nlIndent l2 ++ (rbrace :: rest)))
      = some (kvs, rest)
  | [], l, l2, fuel, rest, _hf => by
    rw [show renderKVs l ([] : List (String × Json)) = [] from rfl, List.nil_append,
      parseObjTail, skipWs_nlIndent, skipWs_cons_not _ _ (by decide)]
    cases fuel with
    | zero => rw [parseObjTailCore, if_pos rfl]
    | succ f => rw [parseObjTailCore, if_pos rfl]
  | (k, v) :: kvs, l, l2, fuel, rest, hf => by
    have hrw : renderKVs l ((k, v) :: kvs)
        = ',' :: (nlIndent l ++ ((strChars k ++ (':' :: ' ' :: renderJ l v))
            ++ renderKVs l kvs)) := rfl
    have hlen : (renderKVs l ((k, v) :: kvs)).length
        = 1 + (nlIndent l).length + (strChars k).length + 2 + (renderJ l v).length
          + (renderKVs l kvs).length := by
      rw [hrw]
      simp [List.length_append, List.length_cons]
      try omega
    cases fuel with
    | zero => omega
    | succ f =>
      have hfv : (renderJ l v).length ≤ f := by omega
      have hfk : (renderKVs l kvs).length ≤ f := by omega
      have hT : renderKVs l ((k, v) :: kvs) ++ (nlIndent l2 ++ (rbrace :: rest))
          = ',' :: (nlIndent l ++ ('"' :: (escapeL k.data ++ ('"' :: (':' :: ' ' ::
              (renderJ l v ++ (renderKVs l kvs
                ++ (nlIndent l2 ++ (rbrace :: rest))))))))) := by
        rw [hrw, strChars]
        simp [List.append_assoc]
      rw [hT, parseObjTail, skipWs_cons_not _ _ (by decide), parseObjTailCore,
        if_neg (by decide), if_pos rfl]
      rw [skipWs_nlIndent, skipWs_cons_not _ _ (by decide), objTailKeyStart, if_pos rfl]
      rw [parseStrRest_escape k.data _, objTailKey]
      rw [skipWs_cons_not _ _ (by decide), objTailColon, if_pos rfl]
      have hpv : parseVal f (' ' :: (renderJ l v ++ (renderKVs l kvs
          ++ (nlIndent l2 ++ (rbrace :: rest)))))
          = some (v, renderKVs l kvs ++ (nlIndent l2 ++ (rbrace :: rest))) := by
        rw [show (' ' :: (renderJ l v ++ (renderKVs l kvs
              ++ (nlIndent l2 ++ (rbrace :: rest)))))
              = [' '] ++ (renderJ l v ++ (renderKVs l kvs
                ++ (nlIndent l2 ++ (rbrace :: rest)))) from rfl]
        rw [parseVal_ws f [' '] _ (by intro c hc; simp at hc; subst hc; decide)]
        exact parseVal_render v l f _ hfv (numSafe_kvs l l2 kvs rest)
      rw [hpv, objTailValue, parseObjTail_render kvs l l2 f rest hfk, objTailStep]
termination_by kvs _l _l2 _fuel _rest _hf => sizeOf kvs

end

/-- Round trip at the document level: pretty-printing a JSON value and
re-parsing it gives back exactly that value. -/
theorem parseJson_renderJson (j : Json) : parseJson (renderJson j) = some j := by
  have h := parseVal_render j 0 ((renderJ 0 j).length + 1) [] (by omega) trivial
  rw [List.append_nil] at h
  rw [parseJson]
  show (match parseVal ((renderJ 0 j).length + 1) (renderJ 0 j) with
    | some (v, rest) => if skipWs rest = [] then some v else none
    | none => none) = some j
  rw [h]
  rfl

-- ===================== claim theorems =====================

/-- C10: the date-range validator in `app.py` enforces no maximum span — it
accepts exactly the well-formed pairs with `start ≤ end`,
`start ≥ today − 365` and `end ≤ today + 7`, so a 300-day range ending today
is accepted, whereas the `weather_service.py` validator rejects every span
over 7 days and every start date before today. -/
theorem c10_validator_divergence (today : Int) :
    (∀ s e : Int, (validate_date_range_app today (some s) (some e)).isOk = true
        ↔ (s ≤ e ∧ today - 365 ≤ s ∧ e ≤ today + 7))
    ∧ (validate_date_range_app today (some (today - 300)) (some today)).isOk = true
    ∧ today - (today - 300) = 300 ∧ (7 : Int) < 300
    ∧ (∀ s e : Int, 7 < e - s →
        (validate_date_range_ws today (some s) (some e)).isOk = false)
    ∧ (∀ s e : Int, s < today →
        (validate_date_range_ws today (some s) (some e)).isOk = false) := by
  have happ : ∀ s e : Int,
      (validate_date_range_app today (some s) (some e)).isOk = true
        ↔ (s ≤ e ∧ today - 365 ≤ s ∧ e ≤ today + 7) := by
    intro s e
    constructor
    · intro hok
      rw [validate_date_range_app] at hok
      split_ifs at hok with h1 h2 h3
      · exact absurd hok (by simp [Except.isOk, Except.toBool])
      · exact absurd hok (by simp [Except.isOk, Except.toBool])
      · exact absurd hok (by simp [Except.isOk, Except.toBool])
      · omega
    · rintro ⟨ha, hb, hc⟩
      rw [validate_date_range_app, if_neg (by omega), if_neg (by omega),
        if_neg (by omega)]
      rfl
  have hws : ∀ s e : Int,
      (validate_date_range_ws today (some s) (some e)).isOk = true
        → (today ≤ s ∧ s ≤ e ∧ e - s ≤ 7) := by
    intro s e hok
    rw [validate_date_range_ws] at hok
    split_ifs at hok with h1 h2 h3
    · exact absurd hok (by simp [Except.isOk, Except.toBool])
    · exact absurd hok (by simp [Except.isOk, Except.toBool])
    · exact absurd hok (by simp [Except.isOk, Except.toBool])
    · omega
  refine ⟨happ, (happ _ _).mpr (by omega), by ring, by norm_num, ?_, ?_⟩
  · intro s e h
    cases hok : (validate_date_range_ws today (some s) (some e)).isOk
    · rfl
    · have := hws s e hok
      omega
  · intro s e h
    cases hok : (validate_date_range_ws today (some s) (some e)).isOk
    · rfl
    · have := hws s e hok
      omega

/-- Witness for C10 at concrete dates (day numbers relative to a fixed
today = 0). -/
theorem c10_validator_divergence_witness :
    (validate_date_range_app 0 (some (-300)) (some 0)).isOk = true
    ∧ (validate_date_range_ws 0 (some 0) (some 8)).isOk = false
    ∧ (validate_date_range_ws 0 (some (-1)) (some 1)).isOk = false := by
  refine ⟨?_, ?_, ?_⟩
  · exact ((c10_validator_divergence 0).1 (-300) 0).mpr (by norm_num)
  · exact (c10_validator_divergence 0).2.2.2.2.1 0 8 (by norm_num)
  · exact (c10_validator_divergence 0).2.2.2.2.2 (-1) 1 (by norm_num)

/-- C8: when the stored `temperature_data` lacks the nested `current.main`
structure — the column is null, or it has no `current` key, or `current`
has no `main` key — the CSV row for that record carries the literal `N/A`
in both the Current Temp column (index 8) and the Current Humidity column
(index 9). -/
theorem c8_csv_missing_current_main (r : WeatherRecord)
    (h : r.temperatureData = Json.null
      ∨ jsonGet r.temperatureData "current" = none
      ∨ (∃ cur, jsonGet r.temperatureData "current" = some cur
          ∧ jsonGet cur "main" = none)) :
    (csvRow r).get? 8 = some "N/A" ∧ (csvRow r).get? 9 = some "N/A" := by
  rcases h with h | h | ⟨cur, hc, hm⟩
  · rw [csvRow, h]
    exact ⟨rfl, rfl⟩
  · cases htr : pyTruthyJson r.temperatureData <;>
      simp [csvRow, htr, h, List.get?]
  · cases htr : pyTruthyJson r.temperatureData <;>
      simp [csvRow, htr, hc, hm, List.get?]

/-- Witness for C8 on a concrete record with a NULL weather column. -/
theorem c8_csv_missing_current_main_witness :
    (csvRow sampleRecord1).get? 8 = some "N/A"
    ∧ (csvRow sampleRecord1).get? 9 = some "N/A" :=
  c8_csv_missing_current_main sampleRecord1 (Or.inl rfl)

/-- C3 (code bug): for every list of two or more records the PDF exporter
does not produce a document — the detail loop's page-break call raises
`NameError` because `PageBreak` is never imported, so the exporter fails
with the wrapped error message. -/
theorem c3_pdf_pagebreak_namerror (now : PyDateTime) (records : List WeatherRecord)
    (h : 2 ≤ records.length) :
    export_to_pdf now records
      = Except.error "PDF export error: name 'PageBreak' is not defined" := by
  cases records with
  | nil => simp at h
  | cons r1 t =>
    cases t with
    | nil => simp at h
    | cons r2 rest =>
      rw [export_to_pdf, pdfDetailLoop]

/-- Witness for C3: two concrete records make the PDF export fail. -/
theorem c3_pdf_pagebreak_namerror_witness :
    export_to_pdf sampleNow [sampleRecord1, sampleRecord2]
      = Except.error "PDF export error: name 'PageBreak' is not defined" :=
  c3_pdf_pagebreak_namerror sampleNow [sampleRecord1, sampleRecord2] (by decide)

theorem string_ne_of_data {a b : String} (h : a.data ≠ b.data) : a ≠ b :=
  fun he => h (by rw [he])

theorem append_data_cons (p x : String) (c : Char) (t : List Char)
    (hp : p.data = c :: t) : (p ++ x).data = c :: (t ++ x.data) := by
  rw [String.data_append, hp]
  rfl

theorem isPrefixOf_self_append (l t : List Char) : l.isPrefixOf (l ++ t) = true := by
  induction l with
  | nil => simp [List.isPrefixOf]
  | cons c cs ih =>
    rw [List.cons_append, List.isPrefixOf]
    simp [ih]

theorem beq_hr_head (p x : String) (c : Char) (t : List Char)
    (hp : p.data = c :: t) (hc : c ≠ '-') : ((p ++ x) == "---") = false := by
  rw [beq_eq_false_iff_ne]
  apply string_ne_of_data
  rw [append_data_cons p x c t hp]
  intro h
  injection h with h1 _
  exact hc h1

theorem beq_hr_head2 (p x : String) (c : Char) (t : List Char)
    (hp : p.data = '-' :: c :: t) (hc : c ≠ '-') : ((p ++ x) == "---") = false := by
  rw [beq_eq_false_iff_ne]
  apply string_ne_of_data
  rw [append_data_cons p x '-' (c :: t) hp]
  intro h
  injection h with _ h2
  injection h2 with h3 _
  exact hc h3

theorem headPref_app_false (p x : String) (c : Char) (t : List Char)
    (hp : p.data = c :: t) (hc : (('#' : Char) == c) = false) :
    linePrefixed "### Record" (p ++ x) = false := by
  rw [linePrefixed, append_data_cons p x c t hp]
  show List.isPrefixOf ('#' :: "## Record".data) (c :: (t ++ x.data)) = false
  rw [List.isPrefixOf]
  simp [hc]

theorem headPref_heading (x : String) :
    linePrefixed "### Record" ("### Record " ++ x) = true := by
  rw [linePrefixed, String.data_append]
  have h : "### Record ".data = "### Record".data ++ [' '] := rfl
  rw [h, List.append_assoc]
  exact isPrefixOf_self_append _ _

theorem beq_hr_head_app3 (p x y z : String) (c : Char) (t : List Char)
    (hp : p.data = c :: t) (hc : c ≠ '-') :
    ((p ++ x ++ y ++ z) == "---") = false :=
  beq_hr_head (p ++ x ++ y) z c ((t ++ x.data) ++ y.data)
    (by rw [String.data_append, String.data_append, hp]; rfl) hc

theorem beq_hr_head2_app2 (p x y : String) (c : Char) (t : List Char)
    (hp : p.data = '-' :: c :: t) (hc : c ≠ '-') :
    ((p ++ x ++ y) == "---") = false :=
  beq_hr_head2 (p ++ x) y c (t ++ x.data)
    (by rw [String.data_append, hp]; rfl) hc

theorem beq_hr_head2_app3 (p x y z : String) (c : Char) (t : List Char)
    (hp : p.data = '-' :: c :: t) (hc : c ≠ '-') :
    ((p ++ x ++ y ++ z) == "---") = false :=
  beq_hr_head2 (p ++ x ++ y) z c ((t ++ x.data) ++ y.data)
    (by rw [String.data_append, String.data_append, hp]; rfl) hc

theorem headPref_app2_false (p x y : String) (c : Char) (t : List Char)
    (hp : p.data = c :: t) (hc : (('#' : Char) == c) = false) :
    linePrefixed "### Record" (p ++ x ++ y) = false :=
  headPref_app_false (p ++ x) y c (t ++ x.data)
    (by rw [String.data_append, hp]; rfl) hc

theorem headPref_app3_false (p x y z : String) (c : Char) (t : List Char)
    (hp : p.data = c :: t) (hc : (('#' : Char) == c) = false) :
    linePrefixed "### Record" (p ++ x ++ y ++ z) = false :=
  headPref_app_false (p ++ x ++ y) z c ((t ++ x.data) ++ y.data)
    (by rw [String.data_append, String.data_append, hp]; rfl) hc

theorem headPref_heading3 (x y z : String) :
    linePrefixed "### Record" ("### Record " ++ x ++ y ++ z) = true := by
  rw [linePrefixed, String.data_append, String.data_append, String.data_append]
  have h : "### Record ".data = "### Record".data ++ [' '] := rfl
  rw [h]
  simp only [List.append_assoc]
  exact isPrefixOf_self_append _ _

theorem hrLineCount_mdDetailBlock (r : WeatherRecord) :
    hrLineCount (mdDetailBlock r) = 1 := by
  rw [mdDetailBlock, hrLineCount]
  rw [List.countP_append, List.countP_append]
  have h1 : List.countP (fun l => l == "---")
      ["### Record " ++ pyIntStr r.id ++ " - " ++ r.location,
       "",
       "- **Location:** " ++ r.location,
       "- **Date Range:** " ++ r.startDate ++ " to " ++ r.endDate,
       "- **Coordinates:** " ++ fmt4 r.latitude ++ ", " ++ fmt4 r.longitude,
       "- **Created:** " ++ (match r.createdAt with | some d => fmtYmdHms d | none => "N/A"),
       "- **Updated:** " ++ (match r.updatedAt with | some d => fmtYmdHms d | none => "N/A"),
       ""] = 0 := by
    have e1 := beq_hr_head_app3 "### Record " (pyIntStr r.id) " - " r.location
      '#' _ rfl (by decide)
    have e2 := beq_hr_head2 "- **Location:** " r.location ' ' _ rfl (by decide)
    have e3 := beq_hr_head2_app3 "- **Date Range:** " r.startDate " to " r.endDate
      ' ' _ rfl (by decide)
    have e4 := beq_hr_head2_app3 "- **Coordinates:** "
      (fmt4 r.latitude) ", " (fmt4 r.longitude) ' ' _ rfl (by decide)
    have e5 := beq_hr_head2 "- **Created:** "
      (match r.createdAt with | some d => fmtYmdHms d | none => "N/A") ' ' _ rfl (by decide)
    have e6 := beq_hr_head2 "- **Updated:** "
      (match r.updatedAt with | some d => fmtYmdHms d | none => "N/A") ' ' _ rfl (by decide)
    simp only [List.countP_cons, List.countP_nil, e1, e2, e3, e4, e5, e6]
    decide
  have h2 : List.countP (fun l => l == "---")
      (if pyTruthyJson r.temperatureData then
        ["#### Weather Data", ""]
        ++ (match jsonGet r.temperatureData "current" with
            | some cur =>
              match jsonGet cur "main" with
              | some mainObj =>
                ["- **Current Temperature:** "
                   ++ pyStrJson (dictGetD mainObj "temp" (Json.str "N/A")) ++ "°C",
                 "- **Humidity:** "
                   ++ pyStrJson (dictGetD mainObj "humidity" (Json.str "N/A")) ++ "%",
                 ""]
              | none => []
            | none => [])
        ++ (match jsonGet r.temperatureData "forecast" with
            | some fc =>
              match jsonGet fc "list" with
              | some (Json.arr items) => ["- **Forecast Periods:** " ++ natStr items.length, ""]
              | some _ => []
              | none => []
            | none => [])
      else []) = 0 := by
    rw [List.countP_eq_zero]
    intro a ha
    split at ha
    · simp only [List.mem_append, List.mem_cons, List.not_mem_nil, or_false] at ha
      rcases ha with ((rfl | rfl) | ha) | ha
      · decide
      · decide
      · split at ha
        · split at ha
          · simp only [List.mem_cons, List.not_mem_nil, or_false] at ha
            rcases ha with rfl | rfl | rfl
            · simp [beq_hr_head2_app2 "- **Current Temperature:** " _ _ ' ' _ rfl (by decide)]
            · simp [beq_hr_head2_app2 "- **Humidity:** " _ _ ' ' _ rfl (by decide)]
            · decide
          · simp at ha
        · simp at ha
      · split at ha
        · split at ha
          · simp only [List.mem_cons, List.not_mem_nil, or_false] at ha
            rcases ha with rfl | rfl
            · simp [beq_hr_head2 "- **Forecast Periods:** " _ ' ' _ rfl (by decide)]
            · decide
          · simp at ha
          · simp at ha
        · simp at ha
    · simp at ha
  rw [h1, h2]
  decide

theorem recHeadCount_mdDetailBlock (r : WeatherRecord) :
    recHeadCount (mdDetailBlock r) = 1 := by
  rw [mdDetailBlock, recHeadCount]
  rw [List.countP_append, List.countP_append]
  have h1 : List.countP (fun l => linePrefixed "### Record" l)
      ["### Record " ++ pyIntStr r.id ++ " - " ++ r.location,
       "",
       "- **Location:** " ++ r.location,
       "- **Date Range:** " ++ r.startDate ++ " to " ++ r.endDate,
       "- **Coordinates:** " ++ fmt4 r.latitude ++ ", " ++ fmt4 r.longitude,
       "- **Created:** " ++ (match r.createdAt with | some d => fmtYmdHms d | none => "N/A"),
       "- **Updated:** " ++ (match r.updatedAt with | some d => fmtYmdHms d | none => "N/A"),
       ""] = 1 := by
    have e1 := headPref_heading3 (pyIntStr r.id) " - " r.location
    have e2 := headPref_app_false "- **Location:** " r.location '-' _ rfl (by decide)
    have e3 := headPref_app3_false "- **Date Range:** "
      r.startDate " to " r.endDate '-' _ rfl (by decide)
    have e4 := headPref_app3_false "- **Coordinates:** "
      (fmt4 r.latitude) ", " (fmt4 r.longitude) '-' _ rfl (by decide)
    have e5 := headPref_app_false "- **Created:** "
      (match r.createdAt with | some d => fmtYmdHms d | none => "N/A") '-' _ rfl (by decide)
    have e6 := headPref_app_false "- **Updated:** "
      (match r.updatedAt with | some d => fmtYmdHms d | none => "N/A") '-' _ rfl (by decide)
    simp only [List.countP_cons, List.countP_nil, e1, e2, e3, e4, e5, e6]
    decide
  have h2 : List.countP (fun l => linePrefixed "### Record" l)
      (if pyTruthyJson r.temperatureData then
        ["#### Weather Data", ""]
        ++ (match jsonGet r.temperatureData "current" with
            | some cur =>
              match jsonGet cur "main" with
              | some mainObj =>
                ["- **Current Temperature:** "
                   ++ pyStrJson (dictGetD mainObj "temp" (Json.str "N/A")) ++ "°C",
                 "- **Humidity:** "
                   ++ pyStrJson (dictGetD mainObj "humidity" (Json.str "N/A")) ++ "%",
                 ""]
              | none => []
            | none => [])
        ++ (match jsonGet r.temperatureData "forecast" with
            | some fc =>
              match jsonGet fc "list" with
              | some (Json.arr items) => ["- **Forecast Periods:** " ++ natStr items.length, ""]
              | some _ => []
              | none => []
            | none => [])
      else []) = 0 := by
    rw [List.countP_eq_zero]
    intro a ha
    split at ha
    · simp only [List.mem_append, List.mem_cons, List.not_mem_nil, or_false] at ha
      rcases ha with ((rfl | rfl) | ha) | ha
      · decide
      · decide
      · split at ha
        · split at ha
          · simp only [List.mem_cons, List.not_mem_nil, or_false] at ha
            rcases ha with rfl | rfl | rfl
            · simp [headPref_app2_false "- **Current Temperature:** " _ _ '-' _ rfl (by decide)]
            · simp [headPref_app2_false "- **Humidity:** " _ _ '-' _ rfl (by decide)]
            · decide
          · simp at ha
        · simp at ha
      · split at ha
        · split at ha
          · simp only [List.mem_cons, List.not_mem_nil, or_false] at ha
            rcases ha with rfl | rfl
            · simp [headPref_app_false "- **Forecast Periods:** " _ '-' _ rfl (by decide)]
            · decide
          · simp at ha
          · simp at ha
        · simp at ha
    · simp at ha
  rw [h1, h2]
  decide

theorem hr_mdSummaryRow (r : WeatherRecord) : ((mdSummaryRow r) == "---") = false := by
  rw [mdSummaryRow]
  simp only [String.append_assoc]
  exact beq_hr_head "| " _ '|' _ rfl (by decide)

theorem headPref_mdSummaryRow (r : WeatherRecord) :
    linePrefixed "### Record" (mdSummaryRow r) = false := by
  rw [mdSummaryRow]
  simp only [String.append_assoc]
  exact headPref_app_false "| " _ '|' _ rfl (by decide)

/-- C4: for every two-record input the Markdown export contains exactly two
`### Record` subsections, but exactly TWO horizontal-rule lines, not one: the
loop appends `---` after every record, so one rule separates the records and a
second, trailing rule follows the last record. The claimed "exactly one
horizontal rule, none trailing" is refuted; this theorem states the corrected
counts. -/
theorem c4_markdown_two_records (now : PyDateTime) (r1 r2 : WeatherRecord) :
    recHeadCount (export_to_markdown_lines now [r1, r2]) = 2 ∧
    hrLineCount (export_to_markdown_lines now [r1, r2]) = 2 := by
  have hfold1 : [r1, r2].foldl (fun acc r => acc ++ [mdSummaryRow r]) []
      = [mdSummaryRow r1, mdSummaryRow r2] := rfl
  have hfold2 : [r1, r2].foldl (fun acc r => acc ++ mdDetailBlock r) []
      = mdDetailBlock r1 ++ mdDetailBlock r2 := by
    show ([] ++ mdDetailBlock r1) ++ mdDetailBlock r2 = _
    rw [List.nil_append]
  constructor
  · have hH : List.countP (fun l => linePrefixed "### Record" l)
        (["# Weather Records Report",
          "**Generated on:** " ++ fmtYmdHms now,
          "**Total Records:** " ++ natStr (List.length [r1, r2]),
          "",
          "## Records Summary",
          "",
          "| ID | Location | Date Range | Coordinates | Created |",
          "|----|----------|------------|-------------|---------|"] : List String) = 0 := by
      have e2 := headPref_app_false "**Generated on:** " (fmtYmdHms now) '*' _ rfl (by decide)
      have e3 := headPref_app_false "**Total Records:** " (natStr (List.length [r1, r2]))
        '*' _ rfl (by decide)
      simp only [List.countP_cons, List.countP_nil, e2, e3]
      decide
    have hS : List.countP (fun l => linePrefixed "### Record" l)
        [mdSummaryRow r1, mdSummaryRow r2] = 0 := by
      simp only [List.countP_cons, List.countP_nil, headPref_mdSummaryRow]
      decide
    have hM : List.countP (fun l => linePrefixed "### Record" l)
        (["", "## Detailed Information", ""] : List String) = 0 := by decide
    have hD1 : List.countP (fun l => linePrefixed "### Record" l) (mdDetailBlock r1) = 1 :=
      recHeadCount_mdDetailBlock r1
    have hD2 : List.countP (fun l => linePrefixed "### Record" l) (mdDetailBlock r2) = 1 :=
      recHeadCount_mdDetailBlock r2
    rw [recHeadCount, export_to_markdown_lines, hfold1, hfold2]
    rw [List.countP_append, List.countP_append, List.countP_append, List.countP_append]
    rw [hH, hS, hM, hD1, hD2]
  · have hH : List.countP (fun l => l == "---")
        (["# Weather Records Report",
          "**Generated on:** " ++ fmtYmdHms now,
          "**Total Records:** " ++ natStr (List.length [r1, r2]),
          "",
          "## Records Summary",
          "",
          "| ID | Location | Date Range | Coordinates | Created |",
          "|----|----------|------------|-------------|---------|"] : List String) = 0 := by
      have e2 := beq_hr_head "**Generated on:** " (fmtYmdHms now) '*' _ rfl (by decide)
      have e3 := beq_hr_head "**Total Records:** " (natStr (List.length [r1, r2]))
        '*' _ rfl (by decide)
      simp only [List.countP_cons, List.countP_nil, e2, e3]
      decide
    have hS : List.countP (fun l => l == "---")
        [mdSummaryRow r1, mdSummaryRow r2] = 0 := by
      simp only [List.countP_cons, List.countP_nil, hr_mdSummaryRow]
      decide
    have hM : List.countP (fun l => l == "---")
        (["", "## Detailed Information", ""] : List String) = 0 := by decide
    have hD1 : List.countP (fun l => l == "---") (mdDetailBlock r1) = 1 :=
      hrLineCount_mdDetailBlock r1
    have hD2 : List.countP (fun l => l == "---") (mdDetailBlock r2) = 1 :=
      hrLineCount_mdDetailBlock r2
    rw [hrLineCount, export_to_markdown_lines, hfold1, hfold2]
    rw [List.countP_append, List.countP_append, List.countP_append, List.countP_append]
    rw [hH, hS, hM, hD1, hD2]

/-- C4 counterexample: on a concrete two-record input the Markdown export has
two `### Record` subsections (as claimed) but two horizontal-rule lines rather
than the claimed single separator, and the rule trailing the last record is the
second-to-last line of the document (followed only by a final empty line). -/
theorem c4_markdown_two_records_counterexample :
    recHeadCount (export_to_markdown_lines sampleNow [sampleRecord1, sampleRecord2]) = 2 ∧
    hrLineCount (export_to_markdown_lines sampleNow [sampleRecord1, sampleRecord2]) = 2 ∧
    hrLineCount (export_to_markdown_lines sampleNow [sampleRecord1, sampleRecord2]) ≠ 1 ∧
    (export_to_markdown_lines sampleNow [sampleRecord1, sampleRecord2]).getLast? = some "" ∧
    (export_to_markdown_lines sampleNow [sampleRecord1, sampleRecord2]).dropLast.getLast?
      = some "---" := by
  refine ⟨by decide, by decide, by decide, by decide, by decide⟩


-- ------------------- C2: counting-dict characterization -------------------

theorem mem_firstDedup (k : String) : ∀ l : List String, k ∈ firstDedup l ↔ k ∈ l := by
  intro l
  induction l with
  | nil => simp [firstDedup]
  | cons x xs ih =>
    simp only [firstDedup]
    by_cases hkx : k = x
    · subst hkx; simp
    · simp [List.mem_cons, List.mem_filter, ih, hkx]

theorem foldl_bump_eq (descs : List String) : ∀ (ks : List String) (f : String → Nat),
    descs.foldl bump (ks.map (fun k => (k, f k)))
      = (ks ++ (firstDedup descs).filter (fun k => decide (k ∉ ks))).map
          (fun k => (k, (if k ∈ ks then f k else 0) + descs.count k)) := by
  induction descs with
  | nil =>
    intro ks f
    simp only [List.foldl_nil, firstDedup, List.filter_nil, List.append_nil, List.count_nil]
    apply List.map_congr_left
    intro k hk
    simp [hk]
  | cons d ds ih =>
    intro ks f
    rw [List.foldl_cons]
    by_cases hd : d ∈ ks
    · have hany : (ks.map (fun k => (k, f k))).any (fun p => p.1 == d) = true := by
        rw [List.any_eq_true]
        exact ⟨(d, f d), List.mem_map_of_mem _ hd, by simp⟩
      have hb : bump (ks.map (fun k => (k, f k))) d
          = ks.map (fun k => (k, if k = d then f k + 1 else f k)) := by
        rw [bump, if_pos hany, List.map_map]
        apply List.map_congr_left
        intro k _
        by_cases hkd : k = d
        · simp [Function.comp, hkd]
        · simp [Function.comp, hkd]
      rw [hb, ih ks (fun k => if k = d then f k + 1 else f k)]
      have hfil : (firstDedup (d :: ds)).filter (fun k => decide (k ∉ ks))
          = (firstDedup ds).filter (fun k => decide (k ∉ ks)) := by
        simp only [firstDedup, List.filter_cons]
        rw [if_neg (by simp [hd]), List.filter_filter]
        apply List.filter_congr
        intro k _
        by_cases hk : k ∈ ks
        · simp [hk]
        · have hkd : k ≠ d := fun he => hk (he ▸ hd)
          simp [hk, hkd]
      rw [hfil]
      apply List.map_congr_left
      intro k hk
      rw [Prod.mk.injEq]
      refine ⟨rfl, ?_⟩
      rw [List.count_cons]
      by_cases hkk : k ∈ ks
      · by_cases hkd : k = d
        · subst hkd
          simp only [if_pos hkk, if_pos rfl, beq_self_eq_true, if_true]
          omega
        · have hbe : (d == k) = false := by
            rw [beq_eq_false_iff_ne]; exact fun h => hkd h.symm
          simp only [if_pos hkk, if_neg hkd, hbe, if_neg Bool.false_ne_true]
          omega
      · have hkd : k ≠ d := fun he => hkk (he ▸ hd)
        have hbe : (d == k) = false := by
          rw [beq_eq_false_iff_ne]; exact fun h => hkd h.symm
        simp only [if_neg hkk, hbe, if_neg Bool.false_ne_true]
        omega
    · have hany : ¬ ((ks.map (fun k => (k, f k))).any (fun p => p.1 == d) = true) := by
        rw [List.any_eq_true]
        rintro ⟨p, hp, hpd⟩
        obtain ⟨k, hk, rfl⟩ := List.mem_map.mp hp
        have hkd2 : k = d := by simpa using hpd
        exact hd (hkd2 ▸ hk)
      have hb : bump (ks.map (fun k => (k, f k))) d
          = (ks ++ [d]).map (fun k => (k, if k = d then 1 else f k)) := by
        rw [bump, if_neg hany, List.map_append, List.map_singleton, if_pos rfl]
        have hmapeq : ks.map (fun k => ((k, if k = d then 1 else f k) : String × Nat))
            = ks.map (fun k => (k, f k)) := by
          apply List.map_congr_left
          intro k hk
          have hkd : k ≠ d := fun he => hd (he ▸ hk)
          simp [hkd]
        rw [hmapeq]
      rw [hb, ih (ks ++ [d]) (fun k => if k = d then 1 else f k)]
      have hlist : ks ++ (firstDedup (d :: ds)).filter (fun k => decide (k ∉ ks))
          = (ks ++ [d]) ++ (firstDedup ds).filter (fun k => decide (k ∉ ks ++ [d])) := by
        simp only [firstDedup, List.filter_cons]
        rw [if_pos (by simp [hd]), List.filter_filter, List.append_cons]
        congr 1
        apply List.filter_congr
        intro k _
        by_cases hk1 : k ∈ ks
        · simp [hk1]
        · by_cases hk2 : k = d
          · simp [hk1, hk2]
          · simp [hk1, hk2]
      rw [hlist]
      apply List.map_congr_left
      intro k hk
      rw [Prod.mk.injEq]
      refine ⟨rfl, ?_⟩
      rw [List.count_cons]
      by_cases hkd : k = d
      · subst hkd
        have h1 : k ∈ ks ++ [k] := by simp
        simp only [if_pos h1, if_pos rfl, if_neg hd, beq_self_eq_true, if_true]
        omega
      · have hbe : (d == k) = false := by
          rw [beq_eq_false_iff_ne]; exact fun h => hkd h.symm
        by_cases hkk : k ∈ ks
        · have h1 : k ∈ ks ++ [d] := by simp [hkk]
          simp only [if_pos h1, if_pos hkk, if_neg hkd, hbe, if_neg Bool.false_ne_true]
          omega
        · have h1 : k ∉ ks ++ [d] := by simp [hkk, hkd]
          simp only [if_neg h1, if_neg hkk, hbe, if_neg Bool.false_ne_true]
          omega

theorem weatherCounts_eq (descs : List String) :
    weatherCounts descs = (firstDedup descs).map (fun k => (k, descs.count k)) := by
  have h := foldl_bump_eq descs [] (fun _ => 0)
  simp only [List.map_nil, List.nil_append, List.not_mem_nil, not_false_iff,
    decide_True, List.filter_true, ite_self, Nat.zero_add] at h
  rw [weatherCounts]
  exact h


-- ------------------- C2: first-maximum characterization -------------------

theorem foldl_max_le_init (ps : List (String × Nat)) :
    ∀ a : Nat, a ≤ ps.foldl (fun a p => max a p.2) a := by
  induction ps with
  | nil => intro a; exact Nat.le_refl a
  | cons p ps ih =>
    intro a
    rw [List.foldl_cons]
    exact Nat.le_trans (Nat.le_max_left a p.2) (ih (max a p.2))

theorem foldl_max_mem_le (ps : List (String × Nat)) :
    ∀ (a : Nat) (q : String × Nat), q ∈ ps → q.2 ≤ ps.foldl (fun a p => max a p.2) a := by
  induction ps with
  | nil => intro a q hq; exact absurd hq (List.not_mem_nil q)
  | cons p ps ih =>
    intro a q hq
    rw [List.foldl_cons]
    rcases List.mem_cons.mp hq with rfl | hq
    · exact Nat.le_trans (Nat.le_max_right a q.2) (foldl_max_le_init ps (max a q.2))
    · exact ih (max a p.2) q hq

theorem foldl_max_attained (ps : List (String × Nat)) :
    ∀ a : Nat, ps.foldl (fun a p => max a p.2) a = a
      ∨ ∃ q ∈ ps, ps.foldl (fun a p => max a p.2) a = q.2 := by
  induction ps with
  | nil => intro a; exact Or.inl rfl
  | cons p ps ih =>
    intro a
    rw [List.foldl_cons]
    rcases ih (max a p.2) with h | ⟨q, hq, h⟩
    · rcases max_choice a p.2 with hm | hm
      · exact Or.inl (by rw [h, hm])
      · exact Or.inr ⟨p, List.mem_cons_self p ps, by rw [h, hm]⟩
    · exact Or.inr ⟨q, List.mem_cons_of_mem p hq, h⟩

theorem find?_cons_true {α : Type} (p : α → Bool) (a : α) (l : List α) (h : p a = true) :
    (a :: l).find? p = some a :=
  List.find?_cons_of_pos _ h

theorem find?_cons_false {α : Type} (p : α → Bool) (a : α) (l : List α) (h : p a = false) :
    (a :: l).find? p = l.find? p :=
  List.find?_cons_of_neg _ (by rw [h]; exact Bool.false_ne_true)

theorem pyMaxBySnd_find (ps : List (String × Nat)) : ∀ best : String × Nat,
    (best :: ps).find? (fun p => p.2 == ps.foldl (fun a p => max a p.2) best.2)
      = some (pyMaxBySnd best ps) := by
  induction ps with
  | nil =>
    intro best
    rw [pyMaxBySnd, List.foldl_nil]
    rw [find?_cons_true (fun p => p.2 == best.2) best [] (by simp)]
  | cons p ps ih =>
    intro best
    have hstep : (p :: ps).foldl (fun a p => max a p.2) best.2
        = ps.foldl (fun a p => max a p.2) (max best.2 p.2) := by
      rw [List.foldl_cons]
    rw [pyMaxBySnd, hstep]
    by_cases hgt : p.2 > best.2
    · rw [if_pos hgt]
      have hmx : max best.2 p.2 = p.2 := Nat.max_eq_right (Nat.le_of_lt hgt)
      rw [hmx]
      have hble : p.2 ≤ ps.foldl (fun a q => max a q.2) p.2 := foldl_max_le_init ps p.2
      have hbne : best.2 ≠ ps.foldl (fun a q => max a q.2) p.2 := by
        intro he
        have hlt : best.2 < ps.foldl (fun a q => max a q.2) p.2 :=
          Nat.lt_of_lt_of_le hgt hble
        omega
      rw [find?_cons_false (fun q => q.2 == ps.foldl (fun a q => max a q.2) p.2) best
        (p :: ps) (beq_eq_false_iff_ne.mpr hbne)]
      exact ih p
    · rw [if_neg hgt]
      have hmx : max best.2 p.2 = best.2 := Nat.max_eq_left (Nat.le_of_not_lt hgt)
      rw [hmx]
      have hih := ih best
      by_cases hb : best.2 = ps.foldl (fun a q => max a q.2) best.2
      · rw [find?_cons_true (fun q => q.2 == ps.foldl (fun a q => max a q.2) best.2) best
          (p :: ps) (beq_iff_eq.mpr hb)]
        rw [find?_cons_true (fun q => q.2 == ps.foldl (fun a q => max a q.2) best.2) best
          ps (beq_iff_eq.mpr hb)] at hih
        exact hih
      · rw [find?_cons_false (fun q => q.2 == ps.foldl (fun a q => max a q.2) best.2) best
          (p :: ps) (beq_eq_false_iff_ne.mpr hb)]
        have hble : best.2 ≤ ps.foldl (fun a q => max a q.2) best.2 :=
          foldl_max_le_init ps best.2
        have hpne : p.2 ≠ ps.foldl (fun a q => max a q.2) best.2 := by
          intro he
          have h1 : p.2 ≤ best.2 := Nat.le_of_not_lt hgt
          omega
        rw [find?_cons_false (fun q => q.2 == ps.foldl (fun a q => max a q.2) best.2) p
          ps (beq_eq_false_iff_ne.mpr hpne)]
        rw [find?_cons_false (fun q => q.2 == ps.foldl (fun a q => max a q.2) best.2) best
          ps (beq_eq_false_iff_ne.mpr hb)] at hih
        exact hih


-- ------------------- C2: mode equivalence and claim -------------------

theorem find?_congr_mem {α : Type} (l : List α) (p q : α → Bool)
    (h : ∀ x ∈ l, p x = q x) : l.find? p = l.find? q := by
  induction l with
  | nil => rfl
  | cons a l ih =>
    have ha := h a (List.mem_cons_self a l)
    by_cases hp : p a = true
    · rw [find?_cons_true p a l hp, find?_cons_true q a l (ha ▸ hp)]
    · have hpf : p a = false := by
        cases hv : p a with
        | false => rfl
        | true => exact absurd hv hp
      rw [find?_cons_false p a l hpf, find?_cons_false q a l (ha ▸ hpf)]
      exact ih (fun x hx => h x (List.mem_cons_of_mem a hx))

theorem find?_map_eq {α β : Type} (f : α → β) (l : List α) (p : β → Bool) :
    (l.map f).find? p = (l.find? (fun a => p (f a))).map f := by
  induction l with
  | nil => rfl
  | cons a l ih =>
    rw [List.map_cons]
    by_cases h : p (f a) = true
    · rw [find?_cons_true p (f a) (l.map f) h, find?_cons_true (fun a => p (f a)) a l h]
      rfl
    · have hf : p (f a) = false := by
        cases hv : p (f a) with
        | false => rfl
        | true => exact absurd hv h
      rw [find?_cons_false p (f a) (l.map f) hf,
        find?_cons_false (fun a => p (f a)) a l hf, ih]

theorem most_descriptive_core (descs : List String) (hne : descs ≠ []) :
    (match weatherCounts descs with
     | [] => "Mixed Conditions"
     | c :: cs => mapDescription (pyMaxBySnd c cs).1)
      = (match specMode descs with
         | some modal => mapDescription modal
         | none => "Mixed Conditions") := by
  obtain ⟨k0, ks', hks⟩ : ∃ k0 ks', firstDedup descs = k0 :: ks' := by
    cases descs with
    | nil => exact absurd rfl hne
    | cons d ds => exact ⟨d, (firstDedup ds).filter (fun y => y ≠ d), rfl⟩
  rw [weatherCounts_eq, hks]
  have hg : ((k0 :: ks').map (fun k => (k, descs.count k))).find?
      (fun p => p.2 == (ks'.map (fun k => (k, descs.count k))).foldl
        (fun a p => max a p.2) (descs.count k0))
      = some (pyMaxBySnd (k0, descs.count k0) (ks'.map (fun k => (k, descs.count k)))) :=
    pyMaxBySnd_find _ _
  have h2 : ((k0 :: ks').map (fun k => (k, descs.count k))).find?
      (fun p => p.2 == (ks'.map (fun k => (k, descs.count k))).foldl
        (fun a p => max a p.2) (descs.count k0))
      = ((k0 :: ks').find? (fun a => descs.count a ==
          (ks'.map (fun k => (k, descs.count k))).foldl
            (fun a p => max a p.2) (descs.count k0))).map (fun k => (k, descs.count k)) :=
    find?_map_eq _ _ _
  have hA : ∀ k2 ∈ (k0 :: ks'), descs.count k2 ≤
      (ks'.map (fun k => (k, descs.count k))).foldl (fun a p => max a p.2) (descs.count k0) := by
    intro k2 hk2
    rcases List.mem_cons.mp hk2 with rfl | hk2
    · exact foldl_max_le_init _ _
    · exact foldl_max_mem_le _ _ (k2, descs.count k2)
        (List.mem_map_of_mem (fun k => (k, descs.count k)) hk2)
  have hB : ∃ k2 ∈ (k0 :: ks'), descs.count k2 =
      (ks'.map (fun k => (k, descs.count k))).foldl (fun a p => max a p.2) (descs.count k0) := by
    rcases foldl_max_attained (ks'.map (fun k => (k, descs.count k))) (descs.count k0)
      with h | ⟨q, hq, h⟩
    · exact ⟨k0, List.mem_cons_self _ _, h.symm⟩
    · obtain ⟨k2, hk2, rfl⟩ := List.mem_map.mp hq
      exact ⟨k2, List.mem_cons_of_mem _ hk2, h.symm⟩
  have h3 : (k0 :: ks').find? (fun a => descs.count a ==
        (ks'.map (fun k => (k, descs.count k))).foldl
          (fun a p => max a p.2) (descs.count k0))
      = (k0 :: ks').find?
          (fun k => (k0 :: ks').all (fun k2 => decide (descs.count k2 ≤ descs.count k))) := by
    apply find?_congr_mem
    intro k hk
    by_cases hkm : descs.count k =
        (ks'.map (fun k => (k, descs.count k))).foldl (fun a p => max a p.2) (descs.count k0)
    · have hL : (descs.count k ==
          (ks'.map (fun k => (k, descs.count k))).foldl
            (fun a p => max a p.2) (descs.count k0)) = true := beq_iff_eq.mpr hkm
      have hR : (k0 :: ks').all (fun k2 => decide (descs.count k2 ≤ descs.count k)) = true := by
        rw [List.all_eq_true]
        intro k2 hk2
        rw [decide_eq_true_eq, hkm]
        exact hA k2 hk2
      rw [hL, hR]
    · have hL : (descs.count k ==
          (ks'.map (fun k => (k, descs.count k))).foldl
            (fun a p => max a p.2) (descs.count k0)) = false := beq_eq_false_iff_ne.mpr hkm
      obtain ⟨k2, hk2, hk2m⟩ := hB
      have hklt : descs.count k <
          (ks'.map (fun k => (k, descs.count k))).foldl
            (fun a p => max a p.2) (descs.count k0) :=
        Nat.lt_of_le_of_ne (hA k hk) hkm
      have hR : (k0 :: ks').all (fun k2 => decide (descs.count k2 ≤ descs.count k)) = false := by
        rw [Bool.eq_false_iff]
        intro hall
        rw [List.all_eq_true] at hall
        have hle := hall k2 hk2
        rw [decide_eq_true_eq] at hle
        omega
      rw [hL, hR]
  have h4 : specMode descs = (k0 :: ks').find?
      (fun k => (k0 :: ks').all (fun k2 => decide (descs.count k2 ≤ descs.count k))) := by
    show (firstDedup descs).find?
        (fun k => (firstDedup descs).all (fun k2 => decide (descs.count k2 ≤ descs.count k))) = _
    rw [hks]
  have h5 : (specMode descs).map (fun k => (k, descs.count k))
      = some (pyMaxBySnd (k0, descs.count k0) (ks'.map (fun k => (k, descs.count k)))) := by
    rw [h4, ← h3, ← h2]
    exact hg
  cases hsm : specMode descs with
  | none =>
    rw [hsm] at h5
    exact absurd h5 (by simp)
  | some kk =>
    rw [hsm, Option.map_some'] at h5
    have hkk := Option.some.inj h5
    show mapDescription
        (pyMaxBySnd (k0, descs.count k0) (ks'.map (fun k => (k, descs.count k)))).1
      = mapDescription kk
    rw [← hkk]

/-- C2: `get_most_descriptive_weather` agrees with the reference definition
written from the spec's words on every input: zero slices give the literal
"Mixed Conditions"; otherwise the lower-cased descriptions are counted, the
mode is taken with ties broken by the first maximum encountered over
first-seen insertion order, the substring keys are checked in their listed
order, and the title-cased modal description is returned when no key
matches. -/
theorem c2_most_descriptive_matches_spec :
    (∀ hourly : List HourlyItem,
        get_most_descriptive_weather hourly = spec_most_descriptive hourly) ∧
    get_most_descriptive_weather [] = "Mixed Conditions" := by
  constructor
  · intro hourly
    rw [get_most_descriptive_weather, spec_most_descriptive]
    by_cases hnil : hourly = []
    · rw [if_pos hnil, if_pos hnil]
    · rw [if_neg hnil, if_neg hnil]
      refine most_descriptive_core _ ?_
      cases hourly with
      | nil => exact absurd rfl hnil
      | cons a as => simp
  · rfl


-- ------------------- C7: JSON round-trip of the export -------------------

theorem foldl_append_singleton_eq_map {α β : Type} (f : α → β) (l : List α) :
    ∀ acc : List β, l.foldl (fun acc r => acc ++ [f r]) acc = acc ++ l.map f := by
  induction l with
  | nil => intro acc; rw [List.foldl_nil, List.map_nil, List.append_nil]
  | cons a l ih =>
    intro acc
    rw [List.foldl_cons, ih, List.map_cons]
    simp

theorem export_to_json_data_eq_map (records : List WeatherRecord) :
    export_to_json_data records = records.map recordJson := by
  rw [export_to_json_data, foldl_append_singleton_eq_map, List.nil_append]

/-- C7: parsing the JSON export of any list of records yields exactly the
array of the per-record objects, one per source record, in order, and each
object's scalar fields (id, location, latitude, longitude, start_date,
end_date) hold the source record's field values exactly. -/
theorem c7_json_roundtrip (records : List WeatherRecord) :
    parseJson (export_to_json records) = some (Json.arr (records.map recordJson)) ∧
    (records.map recordJson).length = records.length ∧
    ∀ r : WeatherRecord,
      jsonGet (recordJson r) "id" = some (Json.num r.id 0) ∧
      jsonGet (recordJson r) "location" = some (Json.str r.location) ∧
      jsonGet (recordJson r) "start_date" = some (Json.str r.startDate) ∧
      jsonGet (recordJson r) "end_date" = some (Json.str r.endDate) ∧
      jsonGet (recordJson r) "latitude" = some (Json.num r.latitude.man r.latitude.exp) ∧
      jsonGet (recordJson r) "longitude" = some (Json.num r.longitude.man r.longitude.exp) := by
  refine ⟨?_, List.length_map records recordJson, ?_⟩
  · rw [export_to_json, export_to_json_data_eq_map]
    exact parseJson_renderJson (Json.arr (records.map recordJson))
  · intro r
    exact ⟨rfl, rfl, rfl, rfl, rfl, rfl⟩


-- ------------------- C6: request trace of the weather fetch -------------------

theorem fetch_counts (u : WsUpstream) :
    (fetch_weather_data u).1.count WReq.current = 1 ∧
    (fetch_weather_data u).1.countP
      (fun r => match r with | WReq.forecast _ => true | _ => false) ≤ 2 := by
  cases hc : u.current with
  | exn m =>
    simp only [fetch_weather_data, hc]
    exact ⟨rfl, by simp [List.countP_cons]⟩
  | resp st cur =>
    cases hf1 : u.forecast1 with
    | exn m =>
      simp only [fetch_weather_data, hc, hf1]
      split_ifs <;> exact ⟨rfl, by simp [List.countP_cons]⟩
    | resp st1 b1 =>
      cases hf2 : u.forecast2 with
      | exn m =>
        simp only [fetch_weather_data, hc, hf1, hf2]
        split_ifs <;> exact ⟨rfl, by simp [List.countP_cons]⟩
      | resp st2 b2 =>
        simp only [fetch_weather_data, hc, hf1, hf2]
        split_ifs <;> exact ⟨rfl, by simp [List.countP_cons]⟩

theorem fetch_retry_iff (u : WsUpstream) :
    WReq.forecast (some 40) ∈ (fetch_weather_data u).1 ↔
      ∃ cur b1, u.current = Http.resp 200 cur ∧ u.forecast1 = Http.resp 200 b1 ∧
        wsSliceCount b1 < 40 := by
  cases hc : u.current with
  | exn m =>
    simp only [fetch_weather_data, hc]
    constructor
    · intro h
      exact absurd h (by simp)
    · rintro ⟨cur, b1, hcc, _, _⟩
      exact absurd hcc (by simp)
  | resp st cur =>
    by_cases hst : st ≠ 200
    · simp only [fetch_weather_data, hc, if_pos hst]
      constructor
      · intro h
        exact absurd h (by simp)
      · rintro ⟨cur2, b1, hcc, _, _⟩
        injection hcc with h1 _
        exact absurd h1 hst
    · have hst2 : st = 200 := not_not.mp hst
      subst hst2
      have h200 : ¬ ((200 : Nat) ≠ 200) := by decide
      cases hf1 : u.forecast1 with
      | exn m =>
        simp only [fetch_weather_data, hc, hf1, if_neg h200]
        constructor
        · intro h
          exact absurd h (by simp)
        · rintro ⟨cur2, b1, _, hff, _⟩
          exact absurd hff (by simp)
      | resp st1 b1 =>
        by_cases hcond : st1 = 200 ∧ wsSliceCount b1 < 40
        · have htr : WReq.forecast (some 40) ∈ (fetch_weather_data u).1 := by
            cases hf2 : u.forecast2 with
            | exn m =>
              simp only [fetch_weather_data, hc, hf1, hf2, if_neg h200, if_pos hcond]
              simp
            | resp st2 b2 =>
              simp only [fetch_weather_data, hc, hf1, hf2, if_neg h200, if_pos hcond]
              split_ifs <;> simp
          constructor
          · intro _
            exact ⟨cur, b1, rfl, by rw [hcond.1], hcond.2⟩
          · intro _
            exact htr
        · simp only [fetch_weather_data, hc, hf1, if_neg h200, if_neg hcond]
          constructor
          · intro h
            split_ifs at h <;> exact absurd h (by simp)
          · rintro ⟨cur2, b2, hcc, hff, hcnt⟩
            injection hff with h1 h2
            exact absurd ⟨h1, by rw [h2]; exact hcnt⟩ hcond

theorem app_get_trace (u : AppUpstream) (lat lon : Dec) (sd ed : String) (ts : Int) :
    (get_weather_data u lat lon sd ed ts).1.count WReq.current = 1 ∧
    (get_weather_data u lat lon sd ed ts).1.countP
      (fun r => match r with | WReq.forecast _ => true | _ => false) ≤ 1 ∧
    (get_weather_data u lat lon sd ed ts).1.countP
      (fun r => match r with | WReq.forecast (some _) => true | _ => false) = 0 := by
  cases hc : u.current with
  | exn m =>
    simp only [get_weather_data, hc]
    exact ⟨rfl, by simp [List.countP_cons], by simp [List.countP_cons]⟩
  | resp st cb =>
    cases hf : u.forecast with
    | exn m =>
      simp only [get_weather_data, hc, hf]
      split_ifs <;> exact ⟨rfl, by simp [List.countP_cons], by simp [List.countP_cons]⟩
    | resp st1 fb =>
      simp only [get_weather_data, hc, hf]
      split_ifs <;> exact ⟨rfl, by simp [List.countP_cons], by simp [List.countP_cons]⟩

/-- C6: in every execution of `WeatherService.fetch_weather_data` the current
endpoint is requested exactly once and the forecast endpoint at most twice,
and the second forecast request (the one with the explicit `cnt=40`
parameter) is issued iff the first forecast request returned status 200 with
fewer than 40 slices; `app.get_weather_data` issues exactly one current
request, at most one forecast request, and never a count-parameterized one,
so the forecast-count retry is the only retry. -/
theorem c6_fetch_retry_discipline :
    (∀ u : WsUpstream,
      (fetch_weather_data u).1.count WReq.current = 1 ∧
      (fetch_weather_data u).1.countP
        (fun r => match r with | WReq.forecast _ => true | _ => false) ≤ 2 ∧
      (WReq.forecast (some 40) ∈ (fetch_weather_data u).1 ↔
        ∃ cur b1, u.current = Http.resp 200 cur ∧ u.forecast1 = Http.resp 200 b1 ∧
          wsSliceCount b1 < 40)) ∧
    (∀ (u : AppUpstream) (lat lon : Dec) (sd ed : String) (ts : Int),
      (get_weather_data u lat lon sd ed ts).1.count WReq.current = 1 ∧
      (get_weather_data u lat lon sd ed ts).1.countP
        (fun r => match r with | WReq.forecast _ => true | _ => false) ≤ 1 ∧
      (get_weather_data u lat lon sd ed ts).1.countP
        (fun r => match r with | WReq.forecast (some _) => true | _ => false) = 0) :=
  ⟨fun u => ⟨(fetch_counts u).1, (fetch_counts u).2, fetch_retry_iff u⟩,
   fun u lat lon sd ed ts => app_get_trace u lat lon sd ed ts⟩


-- ------------------- C5: normalizer re-shaping -------------------

theorem reshapeList_foldl_len (slices : List RawSlice) : ∀ acc : List NSlice,
    (slices.foldl (fun acc s =>
      match s.dt with
      | some ts => if ts ≠ 0 then acc ++ [reshapeSlice s ts] else acc
      | none => acc) acc).length
      = acc.length + (slices.filter truthyDt).length := by
  induction slices with
  | nil => intro acc; rw [List.foldl_nil, List.filter_nil, List.length_nil, Nat.add_zero]
  | cons s ss ih =>
    intro acc
    rw [List.foldl_cons, List.filter_cons]
    cases hdt : s.dt with
    | none =>
      have ht : truthyDt s = false := by rw [truthyDt, hdt]
      simp only [hdt, ht]
      rw [if_neg Bool.false_ne_true]
      exact ih acc
    | some tsv =>
      by_cases hz : tsv ≠ 0
      · have ht : truthyDt s = true := by rw [truthyDt, hdt]; simp [hz]
        simp only [hdt, ht]
        rw [if_pos trivial, if_pos hz, ih (acc ++ [reshapeSlice s tsv])]
        simp only [List.length_append, List.length_cons, List.length_nil]
        omega
      · have hz2 : tsv = 0 := not_not.mp hz
        have ht : truthyDt s = false := by rw [truthyDt, hdt]; simp [hz2]
        simp only [hdt, ht]
        rw [if_neg Bool.false_ne_true, if_neg hz]
        exact ih acc

theorem reshapeList_length (slices : List RawSlice) :
    (reshapeList slices).length = (slices.filter truthyDt).length := by
  rw [reshapeList, reshapeList_foldl_len]
  rw [List.length_nil, Nat.zero_add]

/-- C5 (corrected): when both upstream calls succeed with status 200,
`app.get_weather_data` returns a merged structure whose current-conditions
dict is the non-empty 8-key `current_weather` dict, and whose forecast list
has one entry per upstream slice WITH A TRUTHY `dt` — slices with a missing
or zero `dt` timestamp are silently dropped by the `if timestamp:` filter,
so the claimed "length equals the upstream slice count" holds only for
payloads in which every slice carries a truthy `dt`. -/
theorem c5_normalizer_reshaping (u : AppUpstream) (lat lon : Dec) (sd ed : String)
    (ts : Int) (cb : AppCurrentBody) (fb : AppForecastBody)
    (hcur : u.current = Http.resp 200 cb) (hfc : u.forecast = Http.resp 200 fb) :
    ∃ w : AppWeatherData,
      (get_weather_data u lat lon sd ed ts).2 = Except.ok w ∧
      w.current = buildCurrentWeather cb lat lon ts ∧
      w.current.length = 8 ∧
      w.forecastList.length = ((fb.list.getD []).filter truthyDt).length := by
  have h200 : ¬ ((200 : Nat) ≠ 200) := by decide
  refine ⟨{ current := buildCurrentWeather cb lat lon ts
            forecastList := reshapeList (fb.list.getD [])
            hourlyList := reshapeList (fb.list.getD [])
            dateRangeStart := sd
            dateRangeEnd := ed }, ?_, rfl, rfl, ?_⟩
  · simp only [get_weather_data, hcur, hfc, if_neg h200]
  · exact reshapeList_length _

/-- C5 witness: a concrete upstream in which both calls return 200. -/
theorem c5_normalizer_reshaping_witness :
    sampleAppUpstream.current = Http.resp 200 sampleCB ∧
    sampleAppUpstream.forecast
      = Http.resp 200 ({ list := some [sampleSliceNoDt] } : AppForecastBody) ∧
    ∃ w : AppWeatherData,
      (get_weather_data sampleAppUpstream ⟨0, 0⟩ ⟨0, 0⟩ "2025-06-01" "2025-06-02" 0).2
        = Except.ok w ∧
      w.current = buildCurrentWeather sampleCB ⟨0, 0⟩ ⟨0, 0⟩ 0 ∧
      w.current.length = 8 ∧
      w.forecastList.length
        = ((({ list := some [sampleSliceNoDt] } : AppForecastBody).list.getD []).filter
            truthyDt).length :=
  ⟨rfl, rfl,
   c5_normalizer_reshaping sampleAppUpstream ⟨0, 0⟩ ⟨0, 0⟩ "2025-06-01" "2025-06-02" 0
     sampleCB { list := some [sampleSliceNoDt] } rfl rfl⟩

/-- C5 counterexample to the original claim: both upstream calls succeed and
the forecast payload holds exactly one slice, but that slice has no `dt`, so
the merged forecast list is empty — its length 0 differs from the upstream
slice count 1. -/
theorem c5_normalizer_drops_slice_counterexample :
    ∃ w : AppWeatherData,
      (get_weather_data sampleAppUpstream ⟨0, 0⟩ ⟨0, 0⟩ "2025-06-01" "2025-06-02" 0).2
        = Except.ok w ∧
      w.forecastList.length = 0 ∧
      (match sampleAppUpstream.forecast with
       | Http.resp _ fb => (fb.list.getD []).length
       | Http.exn _ => 0) = 1 ∧
      ¬ (w.forecastList.length
          = (match sampleAppUpstream.forecast with
             | Http.resp _ fb => (fb.list.getD []).length
             | Http.exn _ => 0)) :=
  ⟨{ current := buildCurrentWeather sampleCB ⟨0, 0⟩ ⟨0, 0⟩ 0
     forecastList := []
     hourlyList := []
     dateRangeStart := "2025-06-01"
     dateRangeEnd := "2025-06-02" }, rfl, rfl, rfl, by decide⟩


-- ------------------- C9: renderer determinism -------------------

theorem foldl_append_eq_join {α β : Type} (g : α → List β) (l : List α) :
    ∀ acc : List β, l.foldl (fun acc r => acc ++ g r) acc = acc ++ (l.map g).join := by
  induction l with
  | nil => intro acc; simp
  | cons a l ih =>
    intro acc
    rw [List.foldl_cons, ih, List.map_cons, List.join]
    simp [List.append_assoc]

/-- C9 (corrected): each renderer is a pure function of the record list AND
the generation timestamp — the xml, pdf and markdown renderers embed
`datetime.now()`, so byte-identity across runs holds only at a fixed clock
value. With the timestamp an explicit argument, every renderer's output is
the stated function of the inputs, visiting each record exactly once, in
order, with no filtering or truncation — except the PDF renderer, which
succeeds exactly on inputs with at most one record (the `PageBreak` NameError
aborts every longer run). -/
theorem c9_renderers_deterministic (now : PyDateTime) (records : List WeatherRecord) :
    export_to_json records = renderJson (Json.arr (records.map recordJson)) ∧
    export_to_csv_rows records = csvHeader :: records.map csvRow ∧
    export_to_xml_tree now records
      = Xml.node "weather_records"
          [("export_date", pyIsoformat now), ("total_records", natStr records.length)] none
          (records.map xmlRecordElem) ∧
    export_to_markdown_lines now records
      = ["# Weather Records Report",
         "**Generated on:** " ++ fmtYmdHms now,
         "**Total Records:** " ++ natStr records.length,
         "",
         "## Records Summary",
         "",
         "| ID | Location | Date Range | Coordinates | Created |",
         "|----|----------|------------|-------------|---------|"]
        ++ records.map mdSummaryRow
        ++ ["", "## Detailed Information", ""]
        ++ (records.map mdDetailBlock).join ∧
    (export_to_pdf now records).isOk = decide (records.length ≤ 1) := by
  refine ⟨?_, ?_, ?_, ?_, ?_⟩
  · rw [export_to_json, export_to_json_data_eq_map]
  · rw [export_to_csv_rows, foldl_append_singleton_eq_map, List.singleton_append]
  · rw [export_to_xml_tree, foldl_append_singleton_eq_map, List.nil_append]
  · rw [export_to_markdown_lines, foldl_append_singleton_eq_map, List.nil_append,
      foldl_append_eq_join, List.nil_append]
  · cases records with
    | nil => rfl
    | cons r rest =>
      cases rest with
      | nil => rfl
      | cons r2 rest2 => rfl

/-- C9 counterexample to the original claim: the markdown renderer embeds the
generation clock, so two runs over the same (empty) record list at different
clock values produce different bytes. -/
theorem c9_markdown_clock_dependence_counterexample :
    export_to_markdown sampleNow [] ≠ export_to_markdown sampleNow2 [] := by decide


-- ------------------- C1: failed create/update leaves the store -------------------

theorem app_create_atomic (env : AppEnv) (σ : List DbRecord) (body : Option CreateBody)
    (newId : Int) :
    (app_create_weather_record env σ body newId).1 = 201 ∨
    (app_create_weather_record env σ body newId).2 = σ := by
  unfold app_create_weather_record
  split
  · exact Or.inr rfl
  · split
    · split
      · exact Or.inr rfl
      · split
        · exact Or.inr rfl
        · split
          · exact Or.inr rfl
          · split
            · exact Or.inr rfl
            · split
              · exact Or.inl rfl
              · exact Or.inr rfl
    · exact Or.inr rfl

theorem app_update_atomic (env : AppEnv) (σ : List DbRecord) (rid : Int)
    (body : Option UpdateBody) :
    (app_update_weather_record env σ rid body).1 = 200 ∨
    (app_update_weather_record env σ rid body).2 = σ := by
  unfold app_update_weather_record
  split
  · exact Or.inr rfl
  · split
    · exact Or.inr rfl
    · split
      · exact Or.inr rfl
      · split
        · exact Or.inr rfl
        · split
          · exact Or.inr rfl
          · split
            · exact Or.inl rfl
            · exact Or.inr rfl

theorem ws_create_atomic (env : WsEnv) (σ : List DbRecord) (loc : String)
    (sd ed : Int) (lat lon : Dec) (td : Json) (newId : Int) :
    (ws_create_weather_record env σ loc sd ed lat lon td newId).1 = true ∨
    (ws_create_weather_record env σ loc sd ed lat lon td newId).2 = σ := by
  unfold ws_create_weather_record
  split
  · exact Or.inl rfl
  · exact Or.inr rfl

theorem ws_update_atomic (env : WsEnv) (σ : List DbRecord) (rid : Int)
    (loc : String) (sraw eraw : Option Int) :
    (ws_update_weather_record env σ rid loc sraw eraw).1 = true ∨
    (ws_update_weather_record env σ rid loc sraw eraw).2 = σ := by
  unfold ws_update_weather_record
  split
  · exact Or.inr rfl
  · split
    · exact Or.inr rfl
    · split
      · exact Or.inr rfl
      · split
        · exact Or.inr rfl
        · split
          · exact Or.inl rfl
          · exact Or.inr rfl

/-- C1: every create/update chain is atomic — whenever the returned status is
not the success status (201 for the app create, 200 for the app update,
`true` for the two service operations), the committed store is returned
unchanged: a failed create persists no record and a failed update leaves the
targeted record exactly as it was. Validation, geocoding, weather-fetch and
commit failures all return before publishing any staged mutation. -/
theorem c1_failed_mutations_leave_store (env : AppEnv) (wenv : WsEnv)
    (σ : List DbRecord) (body : Option CreateBody) (ubody : Option UpdateBody)
    (newId rid : Int) (loc : String) (sd ed : Int) (lat lon : Dec) (td : Json)
    (sraw eraw : Option Int) :
    ((app_create_weather_record env σ body newId).1 = 201 ∨
      (app_create_weather_record env σ body newId).2 = σ) ∧
    ((app_update_weather_record env σ rid ubody).1 = 200 ∨
      (app_update_weather_record env σ rid ubody).2 = σ) ∧
    ((ws_create_weather_record wenv σ loc sd ed lat lon td newId).1 = true ∨
      (ws_create_weather_record wenv σ loc sd ed lat lon td newId).2 = σ) ∧
    ((ws_update_weather_record wenv σ rid loc sraw eraw).1 = true ∨
      (ws_update_weather_record wenv σ rid loc sraw eraw).2 = σ) :=
  ⟨app_create_atomic env σ body newId,
   app_update_atomic env σ rid ubody,
   ws_create_atomic wenv σ loc sd ed lat lon td newId,
   ws_update_atomic wenv σ rid loc sraw eraw⟩

end Weather
